import Mathlib

/-!
# xclipd: clipboard persistence daemon

A shallow embedding of `src/xclipd.c`.  The daemon's two global arrays
(`stored`, `pending`) and their counters are modelled by the lists of their
live entries; the X server is modelled by three scripts (event arrivals,
answers of `XGetSelectionOwner`, answers of `XGetWindowProperty`) that the
code consumes, and by the log of the Xlib requests the code issues.
-/

namespace Xclipd

/-! ## Data model -/

abbrev Atom := Nat
abbrev Window := Nat

/-- MAX_STORED of the source: capacity of `stored[]` and `pending[]`. -/
def MAX_STORED : Nat := 4

/-- X11 `None`, the null resource / atom. -/
def None : Nat := 0

/-- X11 `AnyPropertyType`. -/
def AnyPropertyType : Atom := 0

/-- X11 predefined atom `XA_ATOM`. -/
def XA_ATOM : Atom := 4

/-- X11 event code `SelectionNotify`. -/
def SelectionNotify : Nat := 31

/-- StoredSelection of the source: a format, its buffer and the item count. -/
structure StoredSelection where
  type : Atom
  data : List Nat
  len : Nat
deriving DecidableEq, Repr

/-- The atoms interned by `main` at startup (the `static Atom` globals). -/
structure Atoms where
  CLIPBOARD : Atom
  UTF8_STRING : Atom
  STRING : Atom
  TARGETS : Atom
  IMAGE_PNG : Atom
  XCLIPD_PROPERTY : Atom
  INCR : Atom
deriving DecidableEq, Repr

/-- XSelectionEvent: the fields the daemon reads or writes. -/
structure XSelectionEvent where
  type : Nat
  requestor : Window
  selection : Atom
  target : Atom
  property : Atom
  time : Nat
deriving DecidableEq, Repr

/-- XSelectionRequestEvent: the fields the daemon reads. -/
structure XSelectionRequestEvent where
  requestor : Window
  selection : Atom
  target : Atom
  property : Atom
  time : Nat
deriving DecidableEq, Repr

/-- XFixesSelectionNotifyEvent: the field the daemon reads. -/
structure XFixesSelectionNotifyEvent where
  owner : Window
deriving DecidableEq, Repr

/-- The tagged union `XEvent`, split by the values of `ev.type` that the
source distinguishes. -/
inductive XEvent where
  | SelectionNotify (sev : XSelectionEvent)
  | SelectionRequest (sev : XSelectionRequestEvent)
  | SelectionClear
  | XFixesSelectionNotify (fev : XFixesSelectionNotifyEvent)
  | Other (type : Nat)
deriving DecidableEq, Repr

/-- The out-parameters of one `XGetWindowProperty` call that the daemon reads
(it discards the actual format): `data` is the returned buffer as the
caller's pointer views it, `nitems` the item count in units of the
property's own format. -/
structure PropReply where
  type : Atom
  nitems : Nat
  bytes_after : Nat
  data : Option (List Nat)
deriving DecidableEq, Repr

/-- The Xlib requests the daemon sends, with the arguments it passes. -/
inductive XCall where
  | XGetSelectionOwner (selection : Atom)
  | XSetSelectionOwner (selection : Atom) (owner : Window)
  | XConvertSelection (selection target property : Atom) (requestor : Window)
  | XGetWindowProperty (w : Window) (property : Atom) (long_offset long_length : Nat)
      (req_type : Atom)
  | XDeleteProperty (w : Window) (property : Atom)
  | XChangeProperty (w : Window) (property type : Atom) (format : Nat)
      (data : List Nat) (nelements : Int)
  | XSendEvent (w : Window) (ev : XSelectionEvent)
deriving DecidableEq, Repr

/-- The daemon's globals together with the X server's future answers.
`events`: what each wait on the connection yields, `none` being a silence of
at least `NAB_TIMEOUT_MS`; an exhausted script is silence. -/
structure Sys where
  stored : List StoredSelection
  pending : List StoredSelection
  events : List (Option XEvent)
  owners : List Window
  props : List PropReply
  calls : List XCall
deriving DecidableEq, Repr

/-! ## Xlib requests -/

def XGetSelectionOwner (c : Sys) (selection : Atom) : Window × Sys :=
  match c.owners with
  | [] => (None, { c with calls := c.calls ++ [XCall.XGetSelectionOwner selection] })
  | o :: os =>
    (o, { c with owners := os, calls := c.calls ++ [XCall.XGetSelectionOwner selection] })

def XSetSelectionOwner (c : Sys) (selection : Atom) (owner : Window) : Sys :=
  { c with calls := c.calls ++ [XCall.XSetSelectionOwner selection owner] }

def XConvertSelection (c : Sys) (selection target property : Atom) (requestor : Window) : Sys :=
  { c with calls := c.calls ++ [XCall.XConvertSelection selection target property requestor] }

def XGetWindowProperty (c : Sys) (w : Window) (property : Atom) (long_offset long_length : Nat)
    (req_type : Atom) : PropReply × Sys :=
  match c.props with
  | [] =>
    (⟨None, 0, 0, none⟩,
      { c with calls := c.calls ++
          [XCall.XGetWindowProperty w property long_offset long_length req_type] })
  | r :: rs =>
    (r, { c with props := rs, calls := c.calls ++
          [XCall.XGetWindowProperty w property long_offset long_length req_type] })

def XDeleteProperty (c : Sys) (w : Window) (property : Atom) : Sys :=
  { c with calls := c.calls ++ [XCall.XDeleteProperty w property] }

def XChangeProperty (c : Sys) (w : Window) (property type : Atom) (format : Nat)
    (data : List Nat) (nelements : Int) : Sys :=
  { c with calls := c.calls ++ [XCall.XChangeProperty w property type format data nelements] }

def XSendEvent (c : Sys) (w : Window) (ev : XSelectionEvent) : Sys :=
  { c with calls := c.calls ++ [XCall.XSendEvent w ev] }

/-- The C conversion of an `unsigned long` to `int`, as done when `s->len` is
passed for the parameter `int nelements`: the low 32 bits, read as a signed
number. -/
def ulong_to_int (n : Nat) : Int :=
  if n % 2 ^ 32 < 2 ^ 31 then ((n % 2 ^ 32 : Nat) : Int)
  else ((n % 2 ^ 32 : Nat) : Int) - 2 ^ 32

/-- What an `XChangeProperty` request in replace mode leaves in the property:
the first `nelements` items of the buffer; a negative count makes Xlib send
a malformed request, which stores nothing.  Other requests write no
property. -/
def XCall.written : XCall → Option (List Nat)
  | XCall.XChangeProperty _ _ _ _ data nelements =>
    if nelements < 0 then none else some (data.take nelements.toNat)
  | _ => none

/-- The test `ev.type != SelectionNotify` followed by the cast to
`XSelectionEvent *`. -/
def XEvent.asSelectionNotify : XEvent → Option XSelectionEvent
  | XEvent.SelectionNotify sev => some sev
  | _ => none

/-! ## The daemon -/

/-- clear_stored: frees the buffers and resets `stored_count`. -/
def clear_stored (c : Sys) : Sys := { c with stored := [] }

/-- clear_pending: frees the buffers and resets `pending_count`. -/
def clear_pending (c : Sys) : Sys := { c with pending := [] }

/-- find_stored: first entry of the requested type, else for STRING the
first UTF8_STRING entry. -/
def find_stored (A : Atoms) (stored : List StoredSelection) (type : Atom) :
    Option StoredSelection :=
  match stored.find? (fun s => s.type == type) with
  | some s => some s
  | none =>
    if type = A.STRING then stored.find? (fun s => s.type == A.UTF8_STRING) else none

/-- nab_type, the body of the loop once a SelectionNotify has arrived
(source lines 119-145). -/
def nab_type_reply (A : Atoms) (w : Window) (target : Atom) (c : Sys)
    (sev : XSelectionEvent) : Nat × Sys :=
  if sev.property = None then (0, c)
  else
    let r1 := XGetWindowProperty c w A.XCLIPD_PROPERTY 0 0 AnyPropertyType
    if r1.1.type = A.INCR then (0, XDeleteProperty r1.2 w A.XCLIPD_PROPERTY)
    else
      let r2 := XGetWindowProperty r1.2 w A.XCLIPD_PROPERTY 0 r1.1.bytes_after AnyPropertyType
      let c2 := XDeleteProperty r2.2 w A.XCLIPD_PROPERTY
      match r2.1.data with
      | some data =>
        if c2.pending.length < MAX_STORED ∧ r2.1.nitems > 0 then
          (1, { c2 with pending := c2.pending ++ [⟨target, data, r2.1.nitems⟩] })
        else (0, c2)
      | none => (0, c2)

/-- nab_type, the `for (;;)` loop over the incoming events. -/
def nab_type_loop (A : Atoms) (w : Window) (target : Atom) (c : Sys) :
    List (Option XEvent) → Nat × Sys
  | [] => (0, { c with events := [] })
  | none :: evs => (0, { c with events := evs })
  | some ev :: evs =>
    match ev.asSelectionNotify with
    | none => nab_type_loop A w target c evs
    | some sev => nab_type_reply A w target { c with events := evs } sev

/-- nab_type: request one format from the owner and stage it in `pending`. -/
def nab_type (A : Atoms) (w : Window) (target : Atom) (c : Sys) : Nat × Sys :=
  let c1 := XConvertSelection c A.CLIPBOARD target A.XCLIPD_PROPERTY w
  nab_type_loop A w target c1 c1.events

/-- The TARGETS wait of nab once a SelectionNotify has arrived (source lines
176-191): the pair `targets`, `num_targets`. -/
def nab_targets_reply (A : Atoms) (w : Window) (c : Sys) (sev : XSelectionEvent) :
    (Option (List Atom) × Nat) × Sys :=
  if sev.property ≠ None then
    let r := XGetWindowProperty c w A.XCLIPD_PROPERTY 0 1024 XA_ATOM
    let c1 := XDeleteProperty r.2 w A.XCLIPD_PROPERTY
    match r.1.data with
    | some data => if r.1.type = XA_ATOM then ((some data, r.1.nitems), c1) else ((none, 0), c1)
    | none => ((none, 0), c1)
  else ((none, 0), c)

/-- The TARGETS wait of nab, the `for (;;)` loop (source lines 168-193). -/
def nab_targets_loop (A : Atoms) (w : Window) (c : Sys) :
    List (Option XEvent) → (Option (List Atom) × Nat) × Sys
  | [] => ((none, 0), { c with events := [] })
  | none :: evs => ((none, 0), { c with events := evs })
  | some ev :: evs =>
    match ev.asSelectionNotify with
    | none => nab_targets_loop A w c evs
    | some sev => nab_targets_reply A w { c with events := evs } sev

/-- The inner scan `for (j = 0; j < num_targets; j++) if (targets[j] == wanted[i])`. -/
def target_listed (targets : List Atom) (num_targets : Nat) (wanted : Atom) : Bool :=
  (List.range num_targets).any (fun j => targets.getD j 0 == wanted)

/-- The outer loop of nab over the array `wanted[]` (source lines 200-207). -/
def nab_wanted (A : Atoms) (w : Window) (targets : List Atom) (num_targets : Nat) :
    List Atom → Sys → Sys
  | [], c => c
  | t :: ws, c =>
    nab_wanted A w targets num_targets ws
      (if target_listed targets num_targets t then (nab_type A w t c).2 else c)

/-- nab, source lines 160-212: reset the staging area, ask for TARGETS, then
request the wanted formats (or UTF8_STRING alone as the fallback). -/
def nab_fetch (A : Atoms) (w : Window) (c : Sys) : Sys :=
  let c0 : Sys := { c with pending := [] }
  let c1 := XConvertSelection c0 A.CLIPBOARD A.TARGETS A.XCLIPD_PROPERTY w
  let r := nab_targets_loop A w c1 c1.events
  match r.1.1 with
  | some targets =>
    if r.1.2 > 0 then nab_wanted A w targets r.1.2 [A.IMAGE_PNG, A.UTF8_STRING] r.2
    else (nab_type A w A.UTF8_STRING r.2).2
  | none => (nab_type A w A.UTF8_STRING r.2).2

/-- nab, source lines 214-230: commit the staging area or keep the old data. -/
def nab_finish (A : Atoms) (w : Window) (c : Sys) : Sys :=
  if c.pending.length > 0 then
    let c1 := clear_stored c
    let c2 : Sys := { c1 with stored := c1.pending, pending := [] }
    XSetSelectionOwner c2 A.CLIPBOARD w
  else
    let c1 := clear_pending c
    let r := XGetSelectionOwner c1 A.CLIPBOARD
    if r.1 = None ∧ r.2.stored.length > 0 then XSetSelectionOwner r.2 A.CLIPBOARD w
    else r.2

/-- nab: one negotiation cycle. -/
def nab (A : Atoms) (w : Window) (c : Sys) : Sys :=
  let r := XGetSelectionOwner c A.CLIPBOARD
  if r.1 = None then XSetSelectionOwner r.2 A.CLIPBOARD w
  else nab_finish A w (nab_fetch A w r.2)

/-- deny: refuse a request with a SelectionNotify whose property is None. -/
def deny (c : Sys) (sev : XSelectionRequestEvent) : Sys :=
  XSendEvent c sev.requestor
    ⟨SelectionNotify, sev.requestor, sev.selection, sev.target, None, sev.time⟩

/-- fulfill: write the entry to the requestor's property, as `s->len` items of
format 8, and notify. -/
def fulfill (c : Sys) (sev : XSelectionRequestEvent) (s : StoredSelection) : Sys :=
  let c1 := XChangeProperty c sev.requestor sev.property s.type 8 s.data (ulong_to_int s.len)
  XSendEvent c1 sev.requestor
    ⟨SelectionNotify, sev.requestor, sev.selection, sev.target, sev.property, sev.time⟩

/-- One round of the loop that fills `tlist` (source lines 341-343); the
state is `tlist`, `has_string`, `has_utf8`. -/
def tlist_step (A : Atoms) (acc : List Atom × Bool × Bool) (s : StoredSelection) :
    List Atom × Bool × Bool :=
  (acc.1 ++ [s.type],
    if s.type = A.STRING then true else acc.2.1,
    if s.type = A.UTF8_STRING then true else acc.2.2)

/-- The TARGETS answer built by main (source lines 335-346). -/
def build_tlist (A : Atoms) (stored : List StoredSelection) : List Atom :=
  let acc := stored.foldl (tlist_step A) ([A.TARGETS], false, false)
  if acc.2.2 && !acc.2.1 then acc.1 ++ [A.STRING] else acc.1

/-- The `case SelectionRequest:` arm of main. -/
def handle_SelectionRequest (A : Atoms) (c : Sys) (sev : XSelectionRequestEvent) : Sys :=
  if c.stored.length = 0 ∨ sev.property = None then deny c sev
  else if sev.target = A.TARGETS then
    let tlist := build_tlist A c.stored
    let c1 := XChangeProperty c sev.requestor sev.property XA_ATOM 32 tlist tlist.length
    XSendEvent c1 sev.requestor
      ⟨SelectionNotify, sev.requestor, sev.selection, A.TARGETS, sev.property, sev.time⟩
  else
    match find_stored A c.stored sev.target with
    | some s => fulfill c sev s
    | none => deny c sev

/-- The body of the event loop of main after `XNextEvent`. -/
def handle_event (A : Atoms) (w : Window) (c : Sys) : XEvent → Sys
  | XEvent.XFixesSelectionNotify fev =>
    if fev.owner ≠ w ∧ fev.owner ≠ None then nab A w c
    else if fev.owner = None ∧ c.stored.length > 0 then XSetSelectionOwner c A.CLIPBOARD w
    else c
  | XEvent.SelectionRequest sev => handle_SelectionRequest A c sev
  | XEvent.SelectionClear => c
  | XEvent.SelectionNotify _ => c
  | XEvent.Other _ => c

/-- One iteration of the `for (;;)` loop of main, from `XNextEvent` on:
silences are waited through, an exhausted script blocks for ever. -/
def main_iter (A : Atoms) (w : Window) (c : Sys) : Sys :=
  match c.events with
  | [] => c
  | none :: evs => { c with events := evs }
  | some ev :: evs => handle_event A w { c with events := evs } ev

/-- The daemon's globals at program start, facing the given X server. -/
def boot (events : List (Option XEvent)) (owners : List Window) (props : List PropReply) : Sys :=
  { stored := [], pending := [], events := events, owners := owners, props := props, calls := [] }

/-- The state of main after the startup nab and `n` loop iterations. -/
def run (A : Atoms) (w : Window) (events : List (Option XEvent)) (owners : List Window)
    (props : List PropReply) (n : Nat) : Sys :=
  (main_iter A w)^[n] (nab A w (boot events owners props))

/-- Distinct names intern to distinct atoms, none of them `None`. -/
@[reducible]
def Atoms.distinct (A : Atoms) : Prop :=
  [None, A.CLIPBOARD, A.UTF8_STRING, A.STRING, A.TARGETS, A.IMAGE_PNG,
    A.XCLIPD_PROPERTY, A.INCR].Nodup

/-- The targets of the conversion requests found in a log of Xlib requests. -/
def convRequests : List XCall → List Atom
  | [] => []
  | XCall.XConvertSelection _ target _ _ :: cs => target :: convRequests cs
  | _ :: cs => convRequests cs

/-! ## Specification vocabulary -/

/-- What one conversion attempt may do to a state: the Store is untouched,
the log grows by requests that are not conversion requests, and the staging
area either stays as it was (result 0) or, having had room, gains one entry
of the requested type with a positive length (result 1). -/
def Attempt (target : Atom) (c : Sys) (r : Nat × Sys) : Prop :=
  r.2.stored = c.stored ∧
  (∃ more, r.2.calls = c.calls ++ more ∧ convRequests more = []) ∧
  ((r.1 = 0 ∧ r.2.pending = c.pending) ∨
    (r.1 = 1 ∧ c.pending.length < MAX_STORED ∧
      ∃ d n, 0 < n ∧ r.2.pending = c.pending ++ [⟨target, d, n⟩]))

/-- The invariant of the event loop: nothing is staged between two
negotiations, and the Store lists formats from the priority list, in that
order, each at most once. -/
def Inv (A : Atoms) (c : Sys) : Prop :=
  c.pending = [] ∧ List.Sublist (c.stored.map (fun s => s.type)) [A.IMAGE_PNG, A.UTF8_STRING]

/-- The staging area of the cycle `nab A w c` at the moment the commit
decision is taken (source line 214); the early return stages nothing. -/
def staged (A : Atoms) (w : Window) (c : Sys) : List StoredSelection :=
  if (XGetSelectionOwner c A.CLIPBOARD).1 = None then []
  else (nab_fetch A w (XGetSelectionOwner c A.CLIPBOARD).2).pending

/-- The state in which nab starts its loop over the wanted formats, when the
owner query, the TARGETS request, the read of the answer and its deletion
have been done and left the event script `evs`, the owner script `os` and
the property script `ps`. -/
def targets_read (A : Atoms) (w : Window) (c : Sys) (os : List Window)
    (evs : List (Option XEvent)) (ps : List PropReply) : Sys :=
  { stored := c.stored, pending := [], events := evs, owners := os, props := ps,
    calls := c.calls ++
      [XCall.XGetSelectionOwner A.CLIPBOARD,
       XCall.XConvertSelection A.CLIPBOARD A.TARGETS A.XCLIPD_PROPERTY w,
       XCall.XGetWindowProperty w A.XCLIPD_PROPERTY 0 1024 XA_ATOM,
       XCall.XDeleteProperty w A.XCLIPD_PROPERTY] }

/-- The image/png conversion of a cycle: attempted exactly when the format is
listed. -/
def png_attempt (A : Atoms) (w : Window) (targets : List Atom) (c1 : Sys) : Nat × Sys :=
  if A.IMAGE_PNG ∈ targets then nab_type A w A.IMAGE_PNG c1 else (0, c1)

/-- The UTF8_STRING conversion of a cycle: attempted exactly when the format is
listed, in the state the image/png conversion left. -/
def utf8_attempt (A : Atoms) (w : Window) (targets : List Atom) (c1 : Sys) : Nat × Sys :=
  if A.UTF8_STRING ∈ targets then nab_type A w A.UTF8_STRING (png_attempt A w targets c1).2
  else (0, (png_attempt A w targets c1).2)

/-! ## Sample data -/

/-- Sample atom values: STRING is the predefined atom 31, the others are
interned above the predefined range. -/
def exAtoms : Atoms :=
  { CLIPBOARD := 69, UTF8_STRING := 70, STRING := 31, TARGETS := 71, IMAGE_PNG := 72,
    XCLIPD_PROPERTY := 73, INCR := 74 }

/-- A sample UTF8_STRING entry holding the two bytes of "hi". -/
def exText : StoredSelection := ⟨70, [104, 105], 2⟩

/-- A sample image/png entry. -/
def exImage : StoredSelection := ⟨72, [137, 80, 78, 71], 4⟩

/-- A sample daemon state holding one text entry, facing a silent X server. -/
def exSys : Sys :=
  { stored := [exText], pending := [], events := [], owners := [], props := [], calls := [] }

/-- A sample request of window 9 for the given target into property 80. -/
def exRequest (target : Atom) : XSelectionRequestEvent :=
  { requestor := 9, selection := 69, target := target, property := 80, time := 1234 }

/-- Events of a sample session: the foreign owner answers TARGETS, then the
image/png and UTF8_STRING conversions; a peer asks for TARGETS; another
client takes the clipboard and is gone before it can be queried. -/
def exEvents : List (Option XEvent) :=
  [some (XEvent.SelectionNotify ⟨31, 5, 69, 71, 73, 0⟩),
   some (XEvent.SelectionNotify ⟨31, 5, 69, 72, 73, 0⟩),
   some (XEvent.SelectionNotify ⟨31, 5, 69, 70, 73, 0⟩),
   some (XEvent.SelectionRequest (exRequest 71)),
   some (XEvent.XFixesSelectionNotify ⟨8⟩)]

/-- Owners seen by the sample session: window 7 at startup, nobody later. -/
def exOwners : List Window := [7, 0]

/-- Property contents read in the sample session: the list UTF8_STRING,
image/png and one more format, then size probe and data of both conversions. -/
def exProps : List PropReply :=
  [⟨4, 3, 0, some [70, 72, 99]⟩,
   ⟨72, 0, 4, some []⟩, ⟨72, 4, 0, some [137, 80, 78, 71]⟩,
   ⟨70, 0, 2, some []⟩, ⟨70, 2, 0, some [104, 105]⟩]

/-- Events of a short session: the owner answers TARGETS, then the
UTF8_STRING conversion. -/
def wideEvents : List (Option XEvent) :=
  [some (XEvent.SelectionNotify ⟨31, 5, 69, 71, 73, 0⟩),
   some (XEvent.SelectionNotify ⟨31, 5, 69, 70, 73, 0⟩)]

/-- Property contents of the short session when the owner delivers
UTF8_STRING as a property of format 16: the list with UTF8_STRING alone, the
size probe (4 bytes to come), then 2 items in a buffer of 4 bytes. -/
def wideProps : List PropReply :=
  [⟨4, 1, 0, some [70]⟩, ⟨70, 0, 4, some []⟩, ⟨70, 2, 0, some [1, 0, 2, 0]⟩]

/-- A buffer of 2^31 bytes, one more than INT_MAX. -/
@[irreducible]
def hugeData : List Nat := List.replicate 2147483648 0

/-- Property contents of the short session when the owner delivers
UTF8_STRING as 2^31 bytes of format 8. -/
def hugeProps : List PropReply :=
  [⟨4, 1, 0, some [70]⟩, ⟨70, 0, 2147483648, some []⟩, ⟨70, 2147483648, 0, some hugeData⟩]

/-! ## Lemmas on the Store lookup -/

theorem find_type_none (stored : List StoredSelection) (t : Atom) :
    stored.find? (fun s => s.type == t) = none ↔ t ∉ stored.map (fun s => s.type) := by
  induction stored with
  | nil => simp
  | cons a l ih =>
    by_cases h : a.type = t
    · simp [List.find?_cons, h]
    · have h2 : ¬ t = a.type := fun e => h e.symm
      simp [List.find?_cons, h, h2, ih]

theorem find_type_some (stored : List StoredSelection) (t : Atom) (e : StoredSelection)
    (h : stored.find? (fun s => s.type == t) = some e) : e ∈ stored ∧ e.type = t := by
  refine ⟨List.mem_of_find?_eq_some h, ?_⟩
  have := List.find?_some h
  simpa using this

theorem find_type_unique (stored : List StoredSelection) (t : Atom) (e : StoredSelection)
    (hnd : (stored.map (fun s => s.type)).Nodup) (he : e ∈ stored) (ht : e.type = t) :
    stored.find? (fun s => s.type == t) = some e := by
  induction stored with
  | nil => simp at he
  | cons a l ih =>
    rw [List.map_cons, List.nodup_cons] at hnd
    rcases List.mem_cons.mp he with rfl | hm
    · simp [List.find?_cons, ht]
    · have hne : ¬ a.type = t := by
        intro h
        apply hnd.1
        rw [h, ← ht]
        exact List.mem_map_of_mem _ hm
      simp [List.find?_cons, hne, ih hnd.2 hm]

/-! ## Lemmas on the TARGETS answer -/

theorem foldl_tlist_step (A : Atoms) (stored : List StoredSelection)
    (acc : List Atom × Bool × Bool) :
    stored.foldl (tlist_step A) acc =
      (acc.1 ++ stored.map (fun s => s.type),
        acc.2.1 || decide (A.STRING ∈ stored.map (fun s => s.type)),
        acc.2.2 || decide (A.UTF8_STRING ∈ stored.map (fun s => s.type))) := by
  induction stored generalizing acc with
  | nil => simp
  | cons a l ih =>
    rw [List.foldl_cons, ih]
    simp only [tlist_step, List.map_cons, List.append_assoc, List.singleton_append,
      List.mem_cons]
    refine Prod.ext rfl (Prod.ext ?_ ?_)
    · by_cases h : a.type = A.STRING
      · simp [h]
      · have h2 : ¬ A.STRING = a.type := fun e => h e.symm
        simp [h, h2]
    · by_cases h : a.type = A.UTF8_STRING
      · simp [h]
      · have h2 : ¬ A.UTF8_STRING = a.type := fun e => h e.symm
        simp [h, h2]

theorem build_tlist_eq (A : Atoms) (stored : List StoredSelection) :
    build_tlist A stored =
      A.TARGETS :: stored.map (fun s => s.type) ++
        (if A.UTF8_STRING ∈ stored.map (fun s => s.type) ∧
            A.STRING ∉ stored.map (fun s => s.type) then [A.STRING] else []) := by
  unfold build_tlist
  rw [foldl_tlist_step]
  by_cases h1 : A.UTF8_STRING ∈ stored.map (fun s => s.type) <;>
    by_cases h2 : A.STRING ∈ stored.map (fun s => s.type) <;> simp [h1, h2]

/-! ## Lemmas on the Xlib requests -/

theorem Atoms.distinct_facts (A : Atoms) (h : A.distinct) :
    A.IMAGE_PNG ≠ A.UTF8_STRING ∧ A.IMAGE_PNG ≠ A.TARGETS ∧ A.UTF8_STRING ≠ A.TARGETS ∧
    A.STRING ≠ A.UTF8_STRING ∧ A.STRING ≠ A.IMAGE_PNG := by
  refine ⟨?_, ?_, ?_, ?_, ?_⟩ <;> intro e <;> simp [Atoms.distinct, e] at h


theorem convRequests_append (xs ys : List XCall) :
    convRequests (xs ++ ys) = convRequests xs ++ convRequests ys := by
  induction xs with
  | nil => rfl
  | cons x xs ih => cases x <;> simp [convRequests, ih]

theorem XGetWindowProperty_frame (c : Sys) (w : Window) (p : Atom) (o l : Nat) (r : Atom) :
    (XGetWindowProperty c w p o l r).2.stored = c.stored ∧
    (XGetWindowProperty c w p o l r).2.pending = c.pending ∧
    (XGetWindowProperty c w p o l r).2.events = c.events ∧
    (XGetWindowProperty c w p o l r).2.owners = c.owners ∧
    (XGetWindowProperty c w p o l r).2.calls =
      c.calls ++ [XCall.XGetWindowProperty w p o l r] := by
  unfold XGetWindowProperty
  split <;> simp

theorem XGetSelectionOwner_frame (c : Sys) (s : Atom) :
    (XGetSelectionOwner c s).2.stored = c.stored ∧
    (XGetSelectionOwner c s).2.pending = c.pending ∧
    (XGetSelectionOwner c s).2.events = c.events ∧
    (XGetSelectionOwner c s).2.props = c.props ∧
    (XGetSelectionOwner c s).2.calls = c.calls ++ [XCall.XGetSelectionOwner s] := by
  unfold XGetSelectionOwner
  split <;> simp

/-! ## Lemmas on nab_type -/

theorem nab_type_reply_attempt (A : Atoms) (w : Window) (t : Atom) (c : Sys)
    (sev : XSelectionEvent) : Attempt t c (nab_type_reply A w t c sev) := by
  unfold nab_type_reply
  have f1 := XGetWindowProperty_frame c w A.XCLIPD_PROPERTY 0 0 AnyPropertyType
  obtain ⟨f1s, f1p, -, -, f1c⟩ := f1
  dsimp only
  split
  · exact ⟨rfl, ⟨[], by simp, rfl⟩, Or.inl ⟨rfl, rfl⟩⟩
  · split
    · refine ⟨by simp [XDeleteProperty, f1s],
        ⟨[XCall.XGetWindowProperty w A.XCLIPD_PROPERTY 0 0 AnyPropertyType,
          XCall.XDeleteProperty w A.XCLIPD_PROPERTY], ?_, rfl⟩,
        Or.inl ⟨rfl, by simp [XDeleteProperty, f1p]⟩⟩
      simp [XDeleteProperty, f1c]
    · have f2 := XGetWindowProperty_frame (XGetWindowProperty c w A.XCLIPD_PROPERTY 0 0
        AnyPropertyType).2 w A.XCLIPD_PROPERTY 0
        (XGetWindowProperty c w A.XCLIPD_PROPERTY 0 0 AnyPropertyType).1.bytes_after
        AnyPropertyType
      obtain ⟨f2s, f2p, -, -, f2c⟩ := f2
      have hc : ∃ more, (XDeleteProperty (XGetWindowProperty (XGetWindowProperty c w
          A.XCLIPD_PROPERTY 0 0 AnyPropertyType).2 w A.XCLIPD_PROPERTY 0
          (XGetWindowProperty c w A.XCLIPD_PROPERTY 0 0 AnyPropertyType).1.bytes_after
          AnyPropertyType).2 w A.XCLIPD_PROPERTY).calls = c.calls ++ more ∧
          convRequests more = [] := by
        refine ⟨[XCall.XGetWindowProperty w A.XCLIPD_PROPERTY 0 0 AnyPropertyType,
          XCall.XGetWindowProperty w A.XCLIPD_PROPERTY 0
            (XGetWindowProperty c w A.XCLIPD_PROPERTY 0 0 AnyPropertyType).1.bytes_after
            AnyPropertyType,
          XCall.XDeleteProperty w A.XCLIPD_PROPERTY], ?_, rfl⟩
        simp [XDeleteProperty, f2c, f1c]
      split
      · split
        · rename_i data _ hcond
          refine ⟨by simp [XDeleteProperty, f2s, f1s], hc, Or.inr ⟨rfl, ?_, data, _, hcond.2, ?_⟩⟩
          · have := hcond.1
            simpa [XDeleteProperty, f2p, f1p] using this
          · simp [XDeleteProperty, f2p, f1p]
        · exact ⟨by simp [XDeleteProperty, f2s, f1s], hc,
            Or.inl ⟨rfl, by simp [XDeleteProperty, f2p, f1p]⟩⟩
      · exact ⟨by simp [XDeleteProperty, f2s, f1s], hc,
          Or.inl ⟨rfl, by simp [XDeleteProperty, f2p, f1p]⟩⟩

theorem nab_type_loop_attempt (A : Atoms) (w : Window) (t : Atom) (c : Sys)
    (evs : List (Option XEvent)) : Attempt t c (nab_type_loop A w t c evs) := by
  induction evs with
  | nil => exact ⟨rfl, ⟨[], by simp [nab_type_loop], rfl⟩, Or.inl ⟨rfl, rfl⟩⟩
  | cons e evs ih =>
    cases e with
    | none => exact ⟨rfl, ⟨[], by simp [nab_type_loop], rfl⟩, Or.inl ⟨rfl, rfl⟩⟩
    | some ev =>
      unfold nab_type_loop
      split
      · exact ih
      · rename_i sev _
        exact nab_type_reply_attempt A w t { c with events := evs } sev

/-- Every call of nab_type issues its one conversion request and then
behaves as an attempt. -/
theorem nab_type_attempt (A : Atoms) (w : Window) (t : Atom) (c : Sys) :
    (nab_type A w t c).2.stored = c.stored ∧
    (∃ more, (nab_type A w t c).2.calls =
        c.calls ++ XCall.XConvertSelection A.CLIPBOARD t A.XCLIPD_PROPERTY w :: more ∧
      convRequests more = []) ∧
    (((nab_type A w t c).1 = 0 ∧ (nab_type A w t c).2.pending = c.pending) ∨
      ((nab_type A w t c).1 = 1 ∧ c.pending.length < MAX_STORED ∧
        ∃ d n, 0 < n ∧ (nab_type A w t c).2.pending = c.pending ++ [⟨t, d, n⟩])) := by
  have h := nab_type_loop_attempt A w t
    (XConvertSelection c A.CLIPBOARD t A.XCLIPD_PROPERTY w)
    (XConvertSelection c A.CLIPBOARD t A.XCLIPD_PROPERTY w).events
  obtain ⟨hs, ⟨more, hc, hm⟩, hp⟩ := h
  refine ⟨hs, ⟨more, ?_, hm⟩, hp⟩
  rw [show (nab_type A w t c) = nab_type_loop A w t
    (XConvertSelection c A.CLIPBOARD t A.XCLIPD_PROPERTY w)
    (XConvertSelection c A.CLIPBOARD t A.XCLIPD_PROPERTY w).events from rfl, hc]
  simp [XConvertSelection]

/-! ## Lemmas on nab -/

theorem nab_targets_reply_frame (A : Atoms) (w : Window) (c : Sys) (sev : XSelectionEvent) :
    (nab_targets_reply A w c sev).2.stored = c.stored ∧
    (nab_targets_reply A w c sev).2.pending = c.pending ∧
    ∃ more, (nab_targets_reply A w c sev).2.calls = c.calls ++ more ∧
      convRequests more = [] := by
  obtain ⟨fs, fp, -, -, fc⟩ := XGetWindowProperty_frame c w A.XCLIPD_PROPERTY 0 1024 XA_ATOM
  have hc : ∃ more, (XDeleteProperty (XGetWindowProperty c w A.XCLIPD_PROPERTY 0 1024
      XA_ATOM).2 w A.XCLIPD_PROPERTY).calls = c.calls ++ more ∧ convRequests more = [] := by
    refine ⟨[XCall.XGetWindowProperty w A.XCLIPD_PROPERTY 0 1024 XA_ATOM,
      XCall.XDeleteProperty w A.XCLIPD_PROPERTY], ?_, rfl⟩
    simp [XDeleteProperty, fc]
  unfold nab_targets_reply
  dsimp only
  split
  · split
    · split
      · exact ⟨by simp [XDeleteProperty, fs], by simp [XDeleteProperty, fp], hc⟩
      · exact ⟨by simp [XDeleteProperty, fs], by simp [XDeleteProperty, fp], hc⟩
    · exact ⟨by simp [XDeleteProperty, fs], by simp [XDeleteProperty, fp], hc⟩
  · exact ⟨rfl, rfl, [], by simp, rfl⟩

theorem nab_targets_loop_frame (A : Atoms) (w : Window) (c : Sys)
    (evs : List (Option XEvent)) :
    (nab_targets_loop A w c evs).2.stored = c.stored ∧
    (nab_targets_loop A w c evs).2.pending = c.pending ∧
    ∃ more, (nab_targets_loop A w c evs).2.calls = c.calls ++ more ∧
      convRequests more = [] := by
  induction evs with
  | nil => exact ⟨rfl, rfl, [], by simp [nab_targets_loop], rfl⟩
  | cons e evs ih =>
    cases e with
    | none => exact ⟨rfl, rfl, [], by simp [nab_targets_loop], rfl⟩
    | some ev =>
      unfold nab_targets_loop
      split
      · exact ih
      · rename_i sev _
        exact nab_targets_reply_frame A w { c with events := evs } sev

/-- The loop over the wanted formats: the Store is untouched, the staging area
grows by entries whose types form a sublist of the wanted list, one
conversion request is issued per wanted format that is listed, in order, and
a staging area within capacity stays within capacity. -/
theorem nab_wanted_spec (A : Atoms) (w : Window) (targets : List Atom) (n : Nat)
    (ws : List Atom) (c : Sys) :
    (nab_wanted A w targets n ws c).stored = c.stored ∧
    (∃ extra, (nab_wanted A w targets n ws c).pending = c.pending ++ extra ∧
      List.Sublist (extra.map (fun s => s.type)) ws) ∧
    (∃ more, (nab_wanted A w targets n ws c).calls = c.calls ++ more ∧
      convRequests more = ws.filter (fun t => target_listed targets n t)) ∧
    (c.pending.length ≤ MAX_STORED →
      (nab_wanted A w targets n ws c).pending.length ≤ MAX_STORED) := by
  induction ws generalizing c with
  | nil => exact ⟨rfl, ⟨[], by simp [nab_wanted], List.Sublist.slnil⟩,
      ⟨[], by simp [nab_wanted], rfl⟩, fun h => h⟩
  | cons t ws ih =>
    unfold nab_wanted
    by_cases hl : target_listed targets n t = true
    · rw [if_pos hl]
      obtain ⟨hs, ⟨extra, hp, hsub⟩, ⟨more, hc, hm⟩, hcap⟩ := ih (nab_type A w t c).2
      obtain ⟨as, ⟨amore, ac, am⟩, ap⟩ := nab_type_attempt A w t c
      refine ⟨by rw [hs, as], ?_, ?_, ?_⟩
      · rcases ap with ⟨-, ap⟩ | ⟨-, -, d, k, -, ap⟩
        · exact ⟨extra, by rw [hp, ap], hsub.cons t⟩
        · refine ⟨⟨t, d, k⟩ :: extra, by rw [hp, ap]; simp, ?_⟩
          simpa using hsub.cons₂ t
      · refine ⟨XCall.XConvertSelection A.CLIPBOARD t A.XCLIPD_PROPERTY w :: amore ++ more,
          by rw [hc, ac]; simp, ?_⟩
        rw [List.filter_cons_of_pos hl, List.cons_append, convRequests, convRequests_append,
          am, hm]
        rfl
      · intro hcp
        apply hcap
        rcases ap with ⟨-, ap⟩ | ⟨-, hlt, d, k, -, ap⟩
        · rw [ap]; exact hcp
        · rw [ap]; simp; omega
    · rw [if_neg hl]
      obtain ⟨hs, ⟨extra, hp, hsub⟩, ⟨more, hc, hm⟩, hcap⟩ := ih c
      refine ⟨hs, ⟨extra, hp, hsub.cons t⟩, ⟨more, hc, ?_⟩, hcap⟩
      rw [List.filter_cons_of_neg hl, hm]

/-- The fetch phase of nab leaves the Store alone and stages a sublist of
image/png, UTF8_STRING. -/
theorem nab_fetch_spec (A : Atoms) (w : Window) (c : Sys) :
    (nab_fetch A w c).stored = c.stored ∧
    List.Sublist ((nab_fetch A w c).pending.map (fun s => s.type))
      [A.IMAGE_PNG, A.UTF8_STRING] := by
  have hl := nab_targets_loop_frame A w
    (XConvertSelection { c with pending := [] } A.CLIPBOARD A.TARGETS A.XCLIPD_PROPERTY w)
    (XConvertSelection { c with pending := [] } A.CLIPBOARD A.TARGETS A.XCLIPD_PROPERTY w).events
  obtain ⟨ls, lp, -⟩ := hl
  have hfall : ((nab_type A w A.UTF8_STRING (nab_targets_loop A w
      (XConvertSelection { c with pending := [] } A.CLIPBOARD A.TARGETS A.XCLIPD_PROPERTY w)
      (XConvertSelection { c with pending := [] } A.CLIPBOARD A.TARGETS A.XCLIPD_PROPERTY
        w).events).2).2.stored = c.stored ∧
      List.Sublist ((nab_type A w A.UTF8_STRING (nab_targets_loop A w
      (XConvertSelection { c with pending := [] } A.CLIPBOARD A.TARGETS A.XCLIPD_PROPERTY w)
      (XConvertSelection { c with pending := [] } A.CLIPBOARD A.TARGETS A.XCLIPD_PROPERTY
        w).events).2).2.pending.map (fun s => s.type)) [A.IMAGE_PNG, A.UTF8_STRING]) := by
    obtain ⟨as, -, ap⟩ := nab_type_attempt A w A.UTF8_STRING (nab_targets_loop A w
      (XConvertSelection { c with pending := [] } A.CLIPBOARD A.TARGETS A.XCLIPD_PROPERTY w)
      (XConvertSelection { c with pending := [] } A.CLIPBOARD A.TARGETS A.XCLIPD_PROPERTY
        w).events).2
    refine ⟨by rw [as, ls]; rfl, ?_⟩
    rcases ap with ⟨-, ap⟩ | ⟨-, -, d, k, -, ap⟩
    · rw [ap, lp]
      simp [XConvertSelection]
    · rw [ap, lp]
      simp [XConvertSelection]
  unfold nab_fetch
  dsimp only
  split
  · split
    · rename_i targets _ _
      obtain ⟨hs, ⟨extra, hp, hsub⟩, -, -⟩ := nab_wanted_spec A w targets
        (nab_targets_loop A w
          (XConvertSelection { c with pending := [] } A.CLIPBOARD A.TARGETS A.XCLIPD_PROPERTY w)
          (XConvertSelection { c with pending := [] } A.CLIPBOARD A.TARGETS A.XCLIPD_PROPERTY
            w).events).1.2 [A.IMAGE_PNG, A.UTF8_STRING]
        (nab_targets_loop A w
          (XConvertSelection { c with pending := [] } A.CLIPBOARD A.TARGETS A.XCLIPD_PROPERTY w)
          (XConvertSelection { c with pending := [] } A.CLIPBOARD A.TARGETS A.XCLIPD_PROPERTY
            w).events).2
      refine ⟨by rw [hs, ls]; rfl, ?_⟩
      rw [hp, lp]
      simpa [XConvertSelection] using hsub
    · exact hfall
  · exact hfall

/-- The commit phase of nab: either the Store is kept and the staging area was
empty, or the Store becomes the non-empty staging area; staging ends empty. -/
theorem nab_finish_spec (A : Atoms) (w : Window) (c : Sys) :
    (nab_finish A w c).pending = [] ∧
    ((c.pending = [] ∧ (nab_finish A w c).stored = c.stored) ∨
      (c.pending ≠ [] ∧ (nab_finish A w c).stored = c.pending)) := by
  unfold nab_finish
  obtain ⟨os, op, -, -, -⟩ := XGetSelectionOwner_frame (clear_pending c) A.CLIPBOARD
  split
  · rename_i h
    refine ⟨rfl, Or.inr ⟨List.length_pos.mp h, rfl⟩⟩
  · rename_i h
    have he : c.pending = [] := by
      cases hp : c.pending with
      | nil => rfl
      | cons a l => rw [hp] at h; simp at h
    dsimp only
    split
    · exact ⟨by simpa [XSetSelectionOwner, clear_pending] using op,
        Or.inl ⟨he, by simpa [XSetSelectionOwner, clear_pending] using os⟩⟩
    · exact ⟨by simpa [clear_pending] using op,
        Or.inl ⟨he, by simpa [clear_pending] using os⟩⟩

theorem nab_inv (A : Atoms) (w : Window) (c : Sys) (h : Inv A c) : Inv A (nab A w c) := by
  obtain ⟨os, op, -, -, -⟩ := XGetSelectionOwner_frame c A.CLIPBOARD
  unfold nab
  dsimp only
  split
  · exact ⟨by simp [XSetSelectionOwner, op, h.1], by simp [XSetSelectionOwner, os, h.2]⟩
  · obtain ⟨fs, fsub⟩ := nab_fetch_spec A w (XGetSelectionOwner c A.CLIPBOARD).2
    obtain ⟨hp, hst⟩ := nab_finish_spec A w (nab_fetch A w (XGetSelectionOwner c A.CLIPBOARD).2)
    refine ⟨hp, ?_⟩
    rcases hst with ⟨-, hst⟩ | ⟨-, hst⟩
    · rw [hst, fs, os]; exact h.2
    · rw [hst]; exact fsub

theorem handle_SelectionRequest_frame (A : Atoms) (c : Sys) (sev : XSelectionRequestEvent) :
    (handle_SelectionRequest A c sev).stored = c.stored ∧
    (handle_SelectionRequest A c sev).pending = c.pending := by
  unfold handle_SelectionRequest
  split
  · exact ⟨rfl, rfl⟩
  · split
    · exact ⟨rfl, rfl⟩
    · split <;> exact ⟨rfl, rfl⟩

theorem handle_event_inv (A : Atoms) (w : Window) (c : Sys) (ev : XEvent) (h : Inv A c) :
    Inv A (handle_event A w c ev) := by
  cases ev with
  | XFixesSelectionNotify fev =>
    simp only [handle_event]
    split
    · exact nab_inv A w c h
    · split
      · exact h
      · exact h
  | SelectionRequest sev =>
    obtain ⟨hs, hp⟩ := handle_SelectionRequest_frame A c sev
    exact ⟨by rw [show handle_event A w c (XEvent.SelectionRequest sev) =
        handle_SelectionRequest A c sev from rfl, hp]; exact h.1,
      by rw [show handle_event A w c (XEvent.SelectionRequest sev) =
        handle_SelectionRequest A c sev from rfl, hs]; exact h.2⟩
  | SelectionClear => exact h
  | SelectionNotify _ => exact h
  | Other _ => exact h

theorem main_iter_inv (A : Atoms) (w : Window) (c : Sys) (h : Inv A c) :
    Inv A (main_iter A w c) := by
  unfold main_iter
  split
  · exact h
  · exact h
  · exact handle_event_inv A w _ _ h

theorem run_inv (A : Atoms) (w : Window) (events : List (Option XEvent))
    (owners : List Window) (props : List PropReply) (n : Nat) :
    Inv A (run A w events owners props n) := by
  unfold run
  induction n with
  | zero => exact nab_inv A w _ ⟨rfl, List.nil_sublist _⟩
  | succ k ih =>
    rw [Function.iterate_succ_apply']
    exact main_iter_inv A w _ ih

/-! ## Claims on the Responder -/

/-- C2. Fallback correctness of find_stored: on a Store with pairwise distinct
format ids, a STRING lookup returns a UTF8_STRING entry exactly when
UTF8_STRING is stored and STRING is not (and then it is the stored
UTF8_STRING entry); a natively stored STRING entry is returned itself; for
every other format the lookup returns a stored entry of that same format, or
nothing exactly when the format is not stored; a STRING lookup returns
nothing exactly when neither STRING nor UTF8_STRING is stored, and whatever
it returns is a stored entry of type STRING or UTF8_STRING. -/
theorem find_stored_fallback (A : Atoms) (stored : List StoredSelection)
    (hA : A.STRING ≠ A.UTF8_STRING)
    (hnd : (stored.map (fun s => s.type)).Nodup) :
    ((∃ e, find_stored A stored A.STRING = some e ∧ e.type = A.UTF8_STRING) ↔
      (A.UTF8_STRING ∈ stored.map (fun s => s.type) ∧
        A.STRING ∉ stored.map (fun s => s.type))) ∧
    (∀ e ∈ stored, e.type = A.UTF8_STRING → A.STRING ∉ stored.map (fun s => s.type) →
      find_stored A stored A.STRING = some e) ∧
    (∀ e ∈ stored, e.type = A.STRING → find_stored A stored A.STRING = some e) ∧
    (∀ t, t ≠ A.STRING → ∀ e, find_stored A stored t = some e → e ∈ stored ∧ e.type = t) ∧
    (∀ t, t ≠ A.STRING →
      (find_stored A stored t = none ↔ t ∉ stored.map (fun s => s.type))) ∧
    (find_stored A stored A.STRING = none ↔
      (A.STRING ∉ stored.map (fun s => s.type) ∧
        A.UTF8_STRING ∉ stored.map (fun s => s.type))) ∧
    (∀ e, find_stored A stored A.STRING = some e →
      e ∈ stored ∧ (e.type = A.STRING ∨ e.type = A.UTF8_STRING)) := by
  refine ⟨⟨?_, ?_⟩, ?_, ?_, ?_, ?_, ?_, ?_⟩
  · rintro ⟨e, he, het⟩
    unfold find_stored at he
    cases hf : stored.find? (fun s => s.type == A.STRING) with
    | some s =>
      rw [hf] at he
      simp only [Option.some.injEq] at he
      have := (find_type_some stored _ s hf).2
      rw [he, het] at this
      exact absurd this.symm hA
    | none =>
      rw [hf] at he
      simp only [if_true] at he
      refine ⟨?_, (find_type_none stored _).mp hf⟩
      have := find_type_some stored _ e he
      rw [← this.2]
      exact List.mem_map_of_mem _ this.1
  · rintro ⟨hu, hs⟩
    obtain ⟨e, he, het⟩ := List.mem_map.mp hu
    refine ⟨e, ?_, het⟩
    unfold find_stored
    rw [(find_type_none stored _).mpr hs]
    simp only [if_true]
    exact find_type_unique stored _ e hnd he het
  · intro e he het hs
    unfold find_stored
    rw [(find_type_none stored _).mpr hs]
    simp only [if_true]
    exact find_type_unique stored _ e hnd he het
  · intro e he het
    unfold find_stored
    rw [find_type_unique stored _ e hnd he het]
  · intro t ht e he
    unfold find_stored at he
    cases hf : stored.find? (fun s => s.type == t) with
    | some s =>
      rw [hf] at he
      simp only [Option.some.injEq] at he
      rw [← he]
      exact find_type_some stored _ s hf
    | none =>
      rw [hf] at he
      simp [ht] at he
  · intro t ht
    unfold find_stored
    cases hf : stored.find? (fun s => s.type == t) with
    | some s =>
      have := find_type_some stored _ s hf
      simp only [reduceCtorEq, false_iff, not_not]
      rw [← this.2]
      exact List.mem_map_of_mem _ this.1
    | none =>
      simp only [ht, if_false, true_iff]
      exact (find_type_none stored _).mp hf
  · unfold find_stored
    cases hf : stored.find? (fun s => s.type == A.STRING) with
    | some s =>
      have := find_type_some stored _ s hf
      have hm : A.STRING ∈ stored.map (fun s => s.type) := by
        rw [← this.2]
        exact List.mem_map_of_mem _ this.1
      simp only [reduceCtorEq, false_iff, not_and]
      intro h
      exact absurd hm h
    | none =>
      have hs := (find_type_none stored _).mp hf
      simp only [if_true]
      rw [find_type_none]
      exact ⟨fun h => ⟨hs, h⟩, fun h => h.2⟩
  · intro e he
    unfold find_stored at he
    cases hf : stored.find? (fun s => s.type == A.STRING) with
    | some s =>
      rw [hf] at he
      simp only [Option.some.injEq] at he
      have := find_type_some stored _ s hf
      rw [← he]
      exact ⟨this.1, Or.inl this.2⟩
    | none =>
      rw [hf] at he
      simp only [if_true] at he
      have := find_type_some stored _ e he
      exact ⟨this.1, Or.inr this.2⟩

/-- Witness of C2: with only UTF8_STRING stored, a STRING lookup returns that
entry. -/
theorem find_stored_fallback_witness :
    exAtoms.STRING ≠ exAtoms.UTF8_STRING ∧
    ([exText].map (fun s => s.type)).Nodup ∧
    find_stored exAtoms [exText] exAtoms.STRING = some exText :=
  ⟨by decide, by decide,
    (find_stored_fallback exAtoms [exText] (by decide) (by decide)).2.1 exText
      (by decide) (by decide) (by decide)⟩

/-- C3. Enumeration correctness: on a non-empty Store, a TARGETS request with a
valid destination property is answered by writing, as XA_ATOM items of format
32, the list TARGETS, then the stored format ids in Store order, then STRING
exactly when UTF8_STRING is stored and STRING is not, followed by the success
notification; the list has stored_count + 1 items, one more in the alias
case, and never more than MAX_STORED + 2. -/
theorem targets_enumeration (A : Atoms) (c : Sys) (sev : XSelectionRequestEvent)
    (hne : c.stored ≠ []) (hcap : c.stored.length ≤ MAX_STORED)
    (ht : sev.target = A.TARGETS) (hp : sev.property ≠ None) :
    ∃ tlist : List Atom,
      tlist = A.TARGETS :: c.stored.map (fun s => s.type) ++
        (if A.UTF8_STRING ∈ c.stored.map (fun s => s.type) ∧
            A.STRING ∉ c.stored.map (fun s => s.type) then [A.STRING] else []) ∧
      handle_SelectionRequest A c sev =
        { c with calls := c.calls ++
            [XCall.XChangeProperty sev.requestor sev.property XA_ATOM 32 tlist tlist.length,
             XCall.XSendEvent sev.requestor
               ⟨SelectionNotify, sev.requestor, sev.selection, A.TARGETS, sev.property,
                 sev.time⟩] } ∧
      tlist.length = c.stored.length + 1 +
        (if A.UTF8_STRING ∈ c.stored.map (fun s => s.type) ∧
            A.STRING ∉ c.stored.map (fun s => s.type) then 1 else 0) ∧
      tlist.length ≤ MAX_STORED + 2 := by
  refine ⟨_, rfl, ?_, ?_, ?_⟩
  · have h0 : ¬ c.stored.length = 0 := by
      intro h
      exact hne (List.length_eq_zero.mp h)
    unfold handle_SelectionRequest
    rw [if_neg (by simp [h0, hp]), if_pos ht, build_tlist_eq]
    simp [XSendEvent, XChangeProperty]
  · split <;> simp
  · unfold MAX_STORED at *
    split <;> simp <;> omega

/-- Witness of C3: one stored text entry is enumerated as TARGETS,
UTF8_STRING, STRING. -/
theorem targets_enumeration_witness :
    ∃ tlist : List Atom,
      tlist = exAtoms.TARGETS :: exSys.stored.map (fun s => s.type) ++
        (if exAtoms.UTF8_STRING ∈ exSys.stored.map (fun s => s.type) ∧
            exAtoms.STRING ∉ exSys.stored.map (fun s => s.type) then [exAtoms.STRING]
          else []) ∧
      handle_SelectionRequest exAtoms exSys (exRequest 71) =
        { exSys with calls := exSys.calls ++
            [XCall.XChangeProperty (exRequest 71).requestor (exRequest 71).property XA_ATOM 32
               tlist tlist.length,
             XCall.XSendEvent (exRequest 71).requestor
               ⟨SelectionNotify, (exRequest 71).requestor, (exRequest 71).selection,
                 exAtoms.TARGETS, (exRequest 71).property, (exRequest 71).time⟩] } ∧
      tlist.length = exSys.stored.length + 1 +
        (if exAtoms.UTF8_STRING ∈ exSys.stored.map (fun s => s.type) ∧
            exAtoms.STRING ∉ exSys.stored.map (fun s => s.type) then 1 else 0) ∧
      tlist.length ≤ MAX_STORED + 2 :=
  targets_enumeration exAtoms exSys (exRequest 71) (by decide) (by decide) (by decide)
    (by decide)

/-- C9. Denial condition of the Responder: every SelectionRequest is answered
by exactly one SelectionNotify sent to the requestor, echoing requestor,
selection, target and time; its property is None if and only if the Store is
empty, or the destination property is None, or the target is not TARGETS and
find_stored finds nothing; otherwise its property is the request's
destination property, after one XChangeProperty on that property. -/
theorem denial_condition (A : Atoms) (c : Sys) (sev : XSelectionRequestEvent) :
    ∃ (pre : List XCall) (ev : XSelectionEvent),
      handle_SelectionRequest A c sev =
        { c with calls := c.calls ++ pre ++ [XCall.XSendEvent sev.requestor ev] } ∧
      ev = ⟨SelectionNotify, sev.requestor, sev.selection, sev.target, ev.property,
        sev.time⟩ ∧
      (ev.property = None ↔
        (c.stored = [] ∨ sev.property = None ∨
          (sev.target ≠ A.TARGETS ∧ find_stored A c.stored sev.target = none))) ∧
      (ev.property = None → pre = []) ∧
      (ev.property ≠ None → ev.property = sev.property ∧
        ∃ ty fmt d n, pre = [XCall.XChangeProperty sev.requestor sev.property ty fmt d n]) := by
  unfold handle_SelectionRequest
  by_cases h0 : c.stored.length = 0 ∨ sev.property = None
  · rw [if_pos h0]
    refine ⟨[], ⟨SelectionNotify, sev.requestor, sev.selection, sev.target, None, sev.time⟩,
      ?_, rfl, ?_, ?_, ?_⟩
    · simp [deny, XSendEvent]
    · simp only [true_iff]
      rcases h0 with h | h
      · exact Or.inl (List.length_eq_zero.mp h)
      · exact Or.inr (Or.inl h)
    · intro _; rfl
    · intro h; exact absurd rfl h
  · rw [if_neg h0]
    have hs : c.stored ≠ [] := fun h => h0 (Or.inl (by simp [h]))
    have hp : sev.property ≠ None := fun h => h0 (Or.inr h)
    by_cases ht : sev.target = A.TARGETS
    · rw [if_pos ht]
      refine ⟨[XCall.XChangeProperty sev.requestor sev.property XA_ATOM 32
          (build_tlist A c.stored) (build_tlist A c.stored).length],
        ⟨SelectionNotify, sev.requestor, sev.selection, sev.target, sev.property, sev.time⟩,
        ?_, rfl, ?_, ?_, ?_⟩
      · simp [XSendEvent, XChangeProperty, ht]
      · simp [hs, hp, ht]
      · intro h; exact absurd h hp
      · intro _; exact ⟨rfl, _, _, _, _, rfl⟩
    · rw [if_neg ht]
      cases hf : find_stored A c.stored sev.target with
      | none =>
        refine ⟨[], ⟨SelectionNotify, sev.requestor, sev.selection, sev.target, None,
          sev.time⟩, ?_, rfl, ?_, ?_, ?_⟩
        · simp [deny, XSendEvent]
        · simp [ht, hf]
        · intro _; rfl
        · intro h; exact absurd rfl h
      | some s =>
        refine ⟨[XCall.XChangeProperty sev.requestor sev.property s.type 8 s.data
            (ulong_to_int s.len)],
          ⟨SelectionNotify, sev.requestor, sev.selection, sev.target, sev.property,
            sev.time⟩, ?_, rfl, ?_, ?_, ?_⟩
        · simp [fulfill, XSendEvent, XChangeProperty]
        · simp [hs, hp, hf]
        · intro h; exact absurd h hp
        · intro _; exact ⟨rfl, _, _, _, _, rfl⟩

/-- Witness of C9: a request for a format that is not stored is denied. -/
theorem denial_condition_witness :
    ∃ (pre : List XCall) (ev : XSelectionEvent),
      handle_SelectionRequest exAtoms exSys (exRequest 99) =
        { exSys with calls := exSys.calls ++ pre ++ [XCall.XSendEvent (exRequest 99).requestor ev] } ∧
      ev = ⟨SelectionNotify, (exRequest 99).requestor, (exRequest 99).selection,
        (exRequest 99).target, ev.property, (exRequest 99).time⟩ ∧
      (ev.property = None ↔
        (exSys.stored = [] ∨ (exRequest 99).property = None ∨
          ((exRequest 99).target ≠ exAtoms.TARGETS ∧
            find_stored exAtoms exSys.stored (exRequest 99).target = none))) ∧
      (ev.property = None → pre = []) ∧
      (ev.property ≠ None → ev.property = (exRequest 99).property ∧
        ∃ ty fmt d n, pre = [XCall.XChangeProperty (exRequest 99).requestor
          (exRequest 99).property ty fmt d n]) :=
  denial_condition exAtoms exSys (exRequest 99)

/-- C7. Self-heal: with a non-empty Store, an ownership-change notification
whose new owner is None makes the daemon issue exactly one XSetSelectionOwner
for its own window and nothing else, the Store being unchanged; a
notification naming the daemon's own window changes nothing and issues
nothing. -/
theorem self_heal (A : Atoms) (w : Window) (c : Sys) (hw : w ≠ None) :
    (c.stored ≠ [] →
      handle_event A w c (XEvent.XFixesSelectionNotify ⟨None⟩) =
        { c with calls := c.calls ++ [XCall.XSetSelectionOwner A.CLIPBOARD w] }) ∧
    handle_event A w c (XEvent.XFixesSelectionNotify ⟨w⟩) = c := by
  constructor
  · intro hs
    have h0 : 0 < c.stored.length := List.length_pos.mpr hs
    simp [handle_event, XSetSelectionOwner, h0]
  · simp [handle_event, hw]

/-- Witness of C7: window 5 holding one text entry reclaims an unowned
clipboard. -/
theorem self_heal_witness :
    (5 : Window) ≠ None ∧
    handle_event exAtoms 5 exSys (XEvent.XFixesSelectionNotify ⟨None⟩) =
      { exSys with calls := exSys.calls ++ [XCall.XSetSelectionOwner exAtoms.CLIPBOARD 5] } ∧
    handle_event exAtoms 5 exSys (XEvent.XFixesSelectionNotify ⟨5⟩) = exSys :=
  ⟨by decide, (self_heal exAtoms 5 exSys (by decide)).1 (by decide),
    (self_heal exAtoms 5 exSys (by decide)).2⟩

/-! ## Claims on the Negotiator -/

theorem nab_stored_cases (A : Atoms) (w : Window) (c : Sys) :
    (nab A w c).pending = [] ∨ (nab A w c).pending = c.pending := by
  obtain ⟨-, op, -, -, -⟩ := XGetSelectionOwner_frame c A.CLIPBOARD
  unfold nab
  dsimp only
  split
  · exact Or.inr (by simpa [XSetSelectionOwner] using op)
  · exact Or.inl (nab_finish_spec A w _).1

theorem nab_commit_cases (A : Atoms) (w : Window) (c : Sys) :
    (staged A w c = [] ∧ (nab A w c).stored = c.stored) ∨
    (staged A w c ≠ [] ∧ (nab A w c).stored = staged A w c) := by
  obtain ⟨os, -, -, -, -⟩ := XGetSelectionOwner_frame c A.CLIPBOARD
  unfold nab staged
  dsimp only
  split
  · exact Or.inl ⟨rfl, by simpa [XSetSelectionOwner] using os⟩
  · obtain ⟨fs, -⟩ := nab_fetch_spec A w (XGetSelectionOwner c A.CLIPBOARD).2
    rcases (nab_finish_spec A w (nab_fetch A w (XGetSelectionOwner c A.CLIPBOARD).2)).2 with
      ⟨h1, h2⟩ | ⟨h1, h2⟩
    · exact Or.inl ⟨h1, by rw [h2, fs, os]⟩
    · exact Or.inr ⟨h1, h2⟩

/-- C4. Atomic commit: a negotiation cycle that stages zero formats leaves the
Store exactly as it was; this is the case in particular when no event ever
arrives (TARGETS and the fallback conversion both time out). -/
theorem atomic_commit (A : Atoms) (w : Window) (c : Sys) :
    (staged A w c = [] → (nab A w c).stored = c.stored) ∧
    (c.events = [] → staged A w c = []) := by
  constructor
  · intro h
    rcases nab_commit_cases A w c with ⟨-, h2⟩ | ⟨h1, -⟩
    · exact h2
    · exact absurd h h1
  · intro he
    obtain ⟨-, -, oe, -, -⟩ := XGetSelectionOwner_frame c A.CLIPBOARD
    unfold staged
    split
    · rfl
    · rw [he] at oe
      simp [nab_fetch, XConvertSelection, oe, nab_targets_loop, nab_type, nab_type_loop]

/-- Witness of C4: a daemon holding one text entry faces an owner that never
answers; the cycle stages nothing and the entry is still stored. -/
theorem atomic_commit_witness :
    staged exAtoms 5 { exSys with owners := [7] } = [] ∧
    (nab exAtoms 5 { exSys with owners := [7] }).stored = [exText] :=
  ⟨by decide, (atomic_commit exAtoms 5 { exSys with owners := [7] }).1 (by decide)⟩

/-- C5. Uniqueness: after the startup negotiation and any number of loop
iterations, against any behaviour of the X server, the Store holds no two
entries with the same format id, provided image/png and UTF8_STRING are
distinct atoms. -/
theorem store_uniqueness (A : Atoms) (w : Window) (events : List (Option XEvent))
    (owners : List Window) (props : List PropReply) (n : Nat)
    (hA : A.IMAGE_PNG ≠ A.UTF8_STRING) :
    ((run A w events owners props n).stored.map (fun s => s.type)).Nodup := by
  have h := (run_inv A w events owners props n).2
  exact List.Nodup.sublist h (by simp [hA])

/-- Witness of C5: the sample session, whose Store holds two entries. -/
theorem store_uniqueness_witness :
    exAtoms.IMAGE_PNG ≠ exAtoms.UTF8_STRING ∧
    (run exAtoms 5 exEvents exOwners exProps 2).stored = [exImage, exText] ∧
    ((run exAtoms 5 exEvents exOwners exProps 2).stored.map (fun s => s.type)).Nodup :=
  ⟨by decide, by decide, store_uniqueness exAtoms 5 exEvents exOwners exProps 2 (by decide)⟩

theorem nab_type_full (A : Atoms) (w : Window) (t : Atom) (c : Sys)
    (h : MAX_STORED ≤ c.pending.length) :
    (nab_type A w t c).1 = 0 ∧ (nab_type A w t c).2.pending = c.pending := by
  obtain ⟨-, -, ap⟩ := nab_type_attempt A w t c
  rcases ap with ap | ⟨-, hlt, -⟩
  · exact ap
  · omega

theorem nab_wanted_append (A : Atoms) (w : Window) (targets : List Atom) (n : Nat)
    (ws ws2 : List Atom) (c : Sys) :
    nab_wanted A w targets n (ws ++ ws2) c =
      nab_wanted A w targets n ws2 (nab_wanted A w targets n ws c) := by
  induction ws generalizing c with
  | nil => rfl
  | cons t ws ih =>
    simp only [List.cons_append, nab_wanted]
    exact ih _

theorem nab_wanted_full (A : Atoms) (w : Window) (targets : List Atom) (n : Nat)
    (ws : List Atom) (c : Sys) (h : MAX_STORED ≤ c.pending.length) :
    (nab_wanted A w targets n ws c).pending = c.pending := by
  induction ws generalizing c with
  | nil => rfl
  | cons t ws ih =>
    unfold nab_wanted
    split
    · have hf := (nab_type_full A w t c h).2
      rw [ih _ (by rw [hf]; exact h), hf]
    · exact ih c h

/-- C6. Capacity bound: after the startup negotiation and any number of loop
iterations the staging area and the Store each hold at most MAX_STORED = 4
entries, and so does the staging area at the end of the fetch phase of any
cycle; a conversion attempt made on a full staging area returns 0 and stages
nothing, an attempt never takes the staging area beyond 4, and in the loop
over a priority list of any length, once 4 entries are staged the remaining
candidates add nothing. -/
theorem capacity_bound (A : Atoms) (w : Window) :
    (∀ events owners props n,
      (run A w events owners props n).pending.length ≤ MAX_STORED ∧
      (run A w events owners props n).stored.length ≤ MAX_STORED) ∧
    (∀ c, (nab_fetch A w c).pending.length ≤ MAX_STORED) ∧
    (∀ t c, MAX_STORED ≤ c.pending.length →
      (nab_type A w t c).1 = 0 ∧ (nab_type A w t c).2.pending = c.pending) ∧
    (∀ t c, c.pending.length ≤ MAX_STORED →
      (nab_type A w t c).2.pending.length ≤ MAX_STORED) ∧
    (∀ targets n ws c, c.pending.length ≤ MAX_STORED →
      (nab_wanted A w targets n ws c).pending.length ≤ MAX_STORED) ∧
    (∀ targets n ws ws2 c,
      (nab_wanted A w targets n ws c).pending.length = MAX_STORED →
      (nab_wanted A w targets n (ws ++ ws2) c).pending =
        (nab_wanted A w targets n ws c).pending) := by
  refine ⟨?_, ?_, ?_, ?_, ?_, ?_⟩
  · intro events owners props n
    obtain ⟨hp, hs⟩ := run_inv A w events owners props n
    have := hs.length_le
    simp only [List.length_map, List.length_cons, List.length_nil] at this
    rw [hp]
    unfold MAX_STORED
    exact ⟨by simp, by omega⟩
  · intro c
    have := (nab_fetch_spec A w c).2.length_le
    simp only [List.length_map, List.length_cons, List.length_nil] at this
    unfold MAX_STORED
    omega
  · intro t c h
    exact nab_type_full A w t c h
  · intro t c h
    obtain ⟨-, -, ap⟩ := nab_type_attempt A w t c
    rcases ap with ⟨-, ap⟩ | ⟨-, hlt, d, k, -, ap⟩
    · rw [ap]; exact h
    · rw [ap]; simp; omega
  · intro targets n ws c h
    exact (nab_wanted_spec A w targets n ws c).2.2.2 h
  · intro targets n ws ws2 c h
    rw [nab_wanted_append]
    exact nab_wanted_full A w targets n ws2 _ (by omega)

/-- Witness of C6: an attempt on a staging area that already holds four
entries stages nothing, although the owner answers with data. -/
theorem capacity_bound_witness :
    (nab_type exAtoms 5 70
      { exSys with pending := [exImage, exImage, exImage, exImage],
                   events := [some (XEvent.SelectionNotify ⟨31, 5, 69, 70, 73, 0⟩)],
                   props := [⟨70, 0, 2, some []⟩, ⟨70, 2, 0, some [104, 105]⟩] }).1 = 0 ∧
    (nab_type exAtoms 5 70
      { exSys with pending := [exImage, exImage, exImage, exImage],
                   events := [some (XEvent.SelectionNotify ⟨31, 5, 69, 70, 73, 0⟩)],
                   props := [⟨70, 0, 2, some []⟩, ⟨70, 2, 0, some [104, 105]⟩] }).2.pending =
      [exImage, exImage, exImage, exImage] :=
  (capacity_bound exAtoms 5).2.2.1 70 _ (by decide)

/-- Counterexample to C8 as stated: in the sample session the daemon holds
two entries when another client takes the clipboard and vanishes; the
negotiation then finds no owner, claims the clipboard, and returns with
both entries still stored. -/
theorem nab_unowned_counterexample :
    (XGetSelectionOwner (run exAtoms 5 exEvents exOwners exProps 1) exAtoms.CLIPBOARD).1
      = None ∧
    run exAtoms 5 exEvents exOwners exProps 2 =
      nab exAtoms 5 { run exAtoms 5 exEvents exOwners exProps 1 with events := [] } ∧
    (run exAtoms 5 exEvents exOwners exProps 2).stored = [exImage, exText] ∧
    (run exAtoms 5 exEvents exOwners exProps 2).stored ≠ [] := by
  decide

/-- C8, amended. Negotiation step 1: whenever nab runs and the clipboard has no
owner, the daemon issues the owner query and one XSetSelectionOwner for its
window, nothing else (no conversion request), and the Store and the staging
area are left as they were; so the Store is empty when the startup
negotiation returns. -/
theorem nab_unowned (A : Atoms) (w : Window) :
    (∀ c, (XGetSelectionOwner c A.CLIPBOARD).1 = None →
      (nab A w c).calls = c.calls ++
        [XCall.XGetSelectionOwner A.CLIPBOARD, XCall.XSetSelectionOwner A.CLIPBOARD w] ∧
      (nab A w c).stored = c.stored ∧ (nab A w c).pending = c.pending ∧
      (nab A w c).events = c.events ∧ (nab A w c).props = c.props) ∧
    (∀ events owners props,
      (XGetSelectionOwner (boot events owners props) A.CLIPBOARD).1 = None →
      (run A w events owners props 0).stored = [] ∧
      (run A w events owners props 0).calls =
        [XCall.XGetSelectionOwner A.CLIPBOARD, XCall.XSetSelectionOwner A.CLIPBOARD w]) := by
  have key : ∀ c, (XGetSelectionOwner c A.CLIPBOARD).1 = None →
      (nab A w c).calls = c.calls ++
        [XCall.XGetSelectionOwner A.CLIPBOARD, XCall.XSetSelectionOwner A.CLIPBOARD w] ∧
      (nab A w c).stored = c.stored ∧ (nab A w c).pending = c.pending ∧
      (nab A w c).events = c.events ∧ (nab A w c).props = c.props := by
    intro c h
    obtain ⟨os, op, oe, opr, oc⟩ := XGetSelectionOwner_frame c A.CLIPBOARD
    unfold nab
    dsimp only
    rw [if_pos h]
    simp [XSetSelectionOwner, os, op, oe, opr, oc]
  refine ⟨key, ?_⟩
  intro events owners props h
  obtain ⟨hc, hs, -⟩ := key (boot events owners props) h
  exact ⟨by simpa [run] using hs, by simpa [run, boot] using hc⟩

/-- Witness of C8, amended: startup on an unowned clipboard. -/
theorem nab_unowned_witness :
    (XGetSelectionOwner (boot [] [] []) exAtoms.CLIPBOARD).1 = None ∧
    (run exAtoms 5 [] [] [] 0).stored = [] ∧
    (run exAtoms 5 [] [] [] 0).calls =
      [XCall.XGetSelectionOwner exAtoms.CLIPBOARD,
       XCall.XSetSelectionOwner exAtoms.CLIPBOARD 5] :=
  ⟨by decide, (nab_unowned exAtoms 5).2 [] [] [] (by decide)⟩

/-- The answer to a request for a staged format, for any buffer and any
count: one XChangeProperty of format 8 passing the buffer and the count
converted to `int`, then the success notification. -/
theorem staged_served (A : Atoms) (w : Window) (c : Sys) (F : Atom) (B : List Nat) (n : Nat)
    (sev : XSelectionRequestEvent) (hA : A.distinct)
    (hst : ⟨F, B, n⟩ ∈ staged A w c) (ht : sev.target = F) (hp : sev.property ≠ None) :
    handle_SelectionRequest A (nab A w c) sev =
      { nab A w c with calls := (nab A w c).calls ++
          [XCall.XChangeProperty sev.requestor sev.property F 8 B (ulong_to_int n),
           XCall.XSendEvent sev.requestor
             ⟨SelectionNotify, sev.requestor, sev.selection, F, sev.property, sev.time⟩] } := by
  have hne : staged A w c ≠ [] := List.ne_nil_of_mem hst
  have hstored : (nab A w c).stored = staged A w c := by
    rcases nab_commit_cases A w c with ⟨h1, -⟩ | ⟨-, h2⟩
    · exact absurd h1 hne
    · exact h2
  have hsub : List.Sublist ((staged A w c).map (fun s => s.type))
      [A.IMAGE_PNG, A.UTF8_STRING] := by
    unfold staged
    split
    · exact List.nil_sublist _
    · exact (nab_fetch_spec A w _).2
  obtain ⟨hPU, hPT, hUT, -, -⟩ := A.distinct_facts hA
  have hnd : ((staged A w c).map (fun s => s.type)).Nodup :=
    List.Nodup.sublist hsub (by simp [hPU])
  have hF : F = A.IMAGE_PNG ∨ F = A.UTF8_STRING := by
    have : F ∈ (staged A w c).map (fun s => s.type) :=
      List.mem_map.mpr ⟨⟨F, B, n⟩, hst, rfl⟩
    simpa using hsub.subset this
  have hFT : ¬ F = A.TARGETS := by
    rcases hF with h | h
    · rw [h]; exact hPT
    · rw [h]; exact hUT
  have hfind : find_stored A (staged A w c) F = some ⟨F, B, n⟩ := by
    unfold find_stored
    rw [find_type_unique _ F ⟨F, B, n⟩ hnd hst rfl]
  have h0 : ¬ ((nab A w c).stored.length = 0 ∨ sev.property = None) := by
    rw [hstored]
    simp [hne, hp]
  unfold handle_SelectionRequest
  rw [if_neg h0, if_neg (by rw [ht]; exact hFT), hstored, ht, hfind]
  simp [fulfill, XChangeProperty, XSendEvent, ht, hstored]

theorem ulong_to_int_small (n : Nat) (h : n < 2 ^ 31) : ulong_to_int n = (n : Int) := by
  have h1 : n % 2 ^ 32 = n := Nat.mod_eq_of_lt (by omega)
  unfold ulong_to_int
  rw [h1, if_pos h]

/-- Counterexample to C1 as stated.  First, the owner delivers UTF8_STRING as
a property of format 16: the cycle stages the 4-byte buffer 1,0,2,0 with
length 2 (the item count), and the request for UTF8_STRING is answered by an
XChangeProperty of 2 items of format 8, which writes the bytes 1,0 and not
the staged buffer.  Second, the owner delivers 2^31 bytes of format 8: the
cycle stages them with length 2^31, the count reaches Xlib as the negative
`int` -2^31 and nothing is written. -/
theorem round_trip_counterexample :
    ((⟨70, [1, 0, 2, 0], 2⟩ : StoredSelection) ∈
        staged exAtoms 5 (boot wideEvents [7] wideProps) ∧
      handle_SelectionRequest exAtoms (nab exAtoms 5 (boot wideEvents [7] wideProps))
          (exRequest 70) =
        { nab exAtoms 5 (boot wideEvents [7] wideProps) with
          calls := (nab exAtoms 5 (boot wideEvents [7] wideProps)).calls ++
            [XCall.XChangeProperty 9 80 70 8 [1, 0, 2, 0] 2,
             XCall.XSendEvent 9 ⟨SelectionNotify, 9, 69, 70, 80, 1234⟩] } ∧
      (XCall.XChangeProperty 9 80 70 8 [1, 0, 2, 0] 2).written = some [1, 0] ∧
      (XCall.XChangeProperty 9 80 70 8 [1, 0, 2, 0] 2).written ≠ some [1, 0, 2, 0]) ∧
    (staged exAtoms 5 (boot wideEvents [7] hugeProps) = [⟨70, hugeData, 2147483648⟩] ∧
      hugeData.length = 2147483648 ∧
      handle_SelectionRequest exAtoms (nab exAtoms 5 (boot wideEvents [7] hugeProps))
          (exRequest 70) =
        { nab exAtoms 5 (boot wideEvents [7] hugeProps) with
          calls := (nab exAtoms 5 (boot wideEvents [7] hugeProps)).calls ++
            [XCall.XChangeProperty 9 80 70 8 hugeData (-2147483648),
             XCall.XSendEvent 9 ⟨SelectionNotify, 9, 69, 70, 80, 1234⟩] } ∧
      (XCall.XChangeProperty 9 80 70 8 hugeData (-2147483648)).written = none) := by
  have hst : staged exAtoms 5 (boot wideEvents [7] hugeProps) =
      [⟨70, hugeData, 2147483648⟩] := rfl
  refine ⟨by decide, hst, ?_, ?_, rfl⟩
  · unfold hugeData
    exact List.length_replicate _ _
  · have h := staged_served exAtoms 5 (boot wideEvents [7] hugeProps) 70 hugeData 2147483648
      (exRequest 70) (by decide) (by rw [hst]; exact List.mem_singleton.mpr rfl) rfl
      (by decide)
    have hi : ulong_to_int 2147483648 = -2147483648 := by decide
    rw [hi] at h
    exact h

/-- C1, amended. Round-trip: if the negotiation cycle stages an entry of format
F whose buffer B holds exactly n bytes, n being the staged length and at most
INT_MAX, then after the cycle a SelectionRequest for target F with a valid
destination property is answered by one XChangeProperty of n items of format
8 from B under type F on the requestor's property, which writes exactly B,
followed by the success notification, and by nothing else. -/
theorem round_trip (A : Atoms) (w : Window) (c : Sys) (F : Atom) (B : List Nat) (n : Nat)
    (sev : XSelectionRequestEvent) (hA : A.distinct)
    (hst : ⟨F, B, n⟩ ∈ staged A w c) (hlen : B.length = n) (hint : n < 2 ^ 31)
    (ht : sev.target = F) (hp : sev.property ≠ None) :
    handle_SelectionRequest A (nab A w c) sev =
      { nab A w c with calls := (nab A w c).calls ++
          [XCall.XChangeProperty sev.requestor sev.property F 8 B n,
           XCall.XSendEvent sev.requestor
             ⟨SelectionNotify, sev.requestor, sev.selection, F, sev.property, sev.time⟩] } ∧
    (XCall.XChangeProperty sev.requestor sev.property F 8 B n).written = some B := by
  constructor
  · rw [← ulong_to_int_small n hint]
    exact staged_served A w c F B n sev hA hst ht hp
  · subst hlen
    have h0 : ¬ ((B.length : Int) < 0) := Int.not_lt.mpr (Int.ofNat_nonneg _)
    simp only [XCall.written, h0, if_false, Int.toNat_ofNat, List.take_length]

/-- Witness of C1, amended: in the sample session the staged text entry, two
bytes of format 8, is served back byte for byte. -/
theorem round_trip_witness :
    exAtoms.distinct ∧
    (⟨70, [104, 105], 2⟩ : StoredSelection) ∈
      staged exAtoms 5 (boot exEvents exOwners exProps) ∧
    handle_SelectionRequest exAtoms (nab exAtoms 5 (boot exEvents exOwners exProps))
        (exRequest 70) =
      { nab exAtoms 5 (boot exEvents exOwners exProps) with
        calls := (nab exAtoms 5 (boot exEvents exOwners exProps)).calls ++
          [XCall.XChangeProperty 9 80 70 8 [104, 105] 2,
           XCall.XSendEvent 9 ⟨SelectionNotify, 9, 69, 70, 80, 1234⟩] } ∧
    (XCall.XChangeProperty 9 80 70 8 [104, 105] 2).written = some [104, 105] :=
  ⟨by decide, by decide,
    round_trip exAtoms 5 (boot exEvents exOwners exProps) 70 [104, 105] 2 (exRequest 70)
      (by decide) (by decide) (by decide) (by decide) (by decide) (by decide)⟩

/-! ## Priority-ordered negotiation -/

theorem target_listed_iff (targets : List Atom) (t : Atom) :
    target_listed targets targets.length t = true ↔ t ∈ targets := by
  unfold target_listed
  rw [List.any_eq_true]
  constructor
  · rintro ⟨j, hj, hjt⟩
    rw [List.mem_range] at hj
    rw [List.getD_eq_getElem _ _ hj] at hjt
    have : targets[j] = t := by simpa using hjt
    rw [← this]
    exact List.getElem_mem hj
  · intro h
    obtain ⟨j, hj, hjt⟩ := List.getElem_of_mem h
    refine ⟨j, List.mem_range.mpr hj, ?_⟩
    rw [List.getD_eq_getElem _ _ hj, hjt]
    simp

theorem nab_targets_loop_skip (A : Atoms) (w : Window) (c : Sys) (pre : List XEvent)
    (sev : XSelectionEvent) (evs : List (Option XEvent))
    (hpre : ∀ e ∈ pre, e.asSelectionNotify = none) :
    nab_targets_loop A w c (pre.map some ++ some (XEvent.SelectionNotify sev) :: evs) =
      nab_targets_reply A w { c with events := evs } sev := by
  induction pre with
  | nil => rfl
  | cons e pre ih =>
    have he : e.asSelectionNotify = none := hpre e (List.mem_cons_self _ _)
    have ih2 := ih (fun x hx => hpre x (List.mem_cons_of_mem _ hx))
    simp only [List.map_cons, List.cons_append, nab_targets_loop, he]
    exact ih2

theorem nab_finish_calls (A : Atoms) (w : Window) (c : Sys) :
    ∃ more, (nab_finish A w c).calls = c.calls ++ more ∧ convRequests more = [] ∧
      (c.pending ≠ [] → more = [XCall.XSetSelectionOwner A.CLIPBOARD w]) := by
  obtain ⟨-, -, -, -, oc⟩ := XGetSelectionOwner_frame (clear_pending c) A.CLIPBOARD
  unfold nab_finish
  split
  · exact ⟨[XCall.XSetSelectionOwner A.CLIPBOARD w], rfl, rfl, fun _ => rfl⟩
  · rename_i h
    have he : c.pending = [] := by
      cases hp : c.pending with
      | nil => rfl
      | cons a l => rw [hp] at h; simp at h
    dsimp only
    split
    · refine ⟨[XCall.XGetSelectionOwner A.CLIPBOARD, XCall.XSetSelectionOwner A.CLIPBOARD w],
        ?_, rfl, fun h => absurd he h⟩
      simp only [XSetSelectionOwner, oc, List.append_assoc]
      rfl
    · exact ⟨[XCall.XGetSelectionOwner A.CLIPBOARD], by rw [oc]; rfl, rfl,
        fun h => absurd he h⟩

theorem nab_wanted_two (A : Atoms) (w : Window) (targets : List Atom) (c1 : Sys) :
    nab_wanted A w targets targets.length [A.IMAGE_PNG, A.UTF8_STRING] c1 =
      (utf8_attempt A w targets c1).2 := by
  simp only [nab_wanted, utf8_attempt, png_attempt, target_listed_iff]
  by_cases h1 : A.IMAGE_PNG ∈ targets <;> by_cases h2 : A.UTF8_STRING ∈ targets <;>
    simp [h1, h2]

/-- The fetch phase when a well-formed non-empty list arrives. -/
theorem nab_fetch_listed (A : Atoms) (w : Window) (c : Sys) (pre : List XEvent)
    (sev : XSelectionEvent) (evs : List (Option XEvent)) (targets : List Atom) (ba : Nat)
    (ps : List PropReply)
    (hpre : ∀ e ∈ pre, e.asSelectionNotify = none)
    (hev : c.events = pre.map some ++ some (XEvent.SelectionNotify sev) :: evs)
    (hsev : sev.property ≠ None)
    (hpr : c.props = ⟨XA_ATOM, targets.length, ba, some targets⟩ :: ps)
    (hne : targets ≠ []) :
    nab_fetch A w c =
      (utf8_attempt A w targets
        { stored := c.stored, pending := [], events := evs, owners := c.owners, props := ps,
          calls := c.calls ++
            [XCall.XConvertSelection A.CLIPBOARD A.TARGETS A.XCLIPD_PROPERTY w,
             XCall.XGetWindowProperty w A.XCLIPD_PROPERTY 0 1024 XA_ATOM,
             XCall.XDeleteProperty w A.XCLIPD_PROPERTY] }).2 := by
  have hlen : 0 < targets.length := List.length_pos.mpr hne
  unfold nab_fetch
  simp only [XConvertSelection, hev]
  rw [nab_targets_loop_skip A w _ pre sev evs hpre]
  simp only [nab_targets_reply, hsev, ne_eq, not_false_eq_true, if_true, XGetWindowProperty,
    hpr, XDeleteProperty, gt_iff_lt, hlen, List.append_assoc, List.singleton_append]
  exact nab_wanted_two A w targets _

theorem listed_attempt_spec (A : Atoms) (w : Window) (targets : List Atom) (t : Atom)
    (c : Sys) (r : Nat × Sys)
    (hr : r = if t ∈ targets then nab_type A w t c else (0, c)) :
    r.2.stored = c.stored ∧
    (∃ more, r.2.calls = c.calls ++ more ∧
      convRequests more = [t].filter (fun x => decide (x ∈ targets))) ∧
    ((r.1 = 0 ∧ r.2.pending = c.pending) ∨
      (r.1 = 1 ∧ t ∈ targets ∧ ∃ d n, 0 < n ∧ r.2.pending = c.pending ++ [⟨t, d, n⟩])) := by
  by_cases h : t ∈ targets
  · rw [if_pos h] at hr
    obtain ⟨as, ⟨more, ac, am⟩, ap⟩ := nab_type_attempt A w t c
    rw [hr]
    refine ⟨as, ⟨_, ac, ?_⟩, ?_⟩
    · simp [convRequests, am, h]
    · rcases ap with ap | ⟨a1, -, ap⟩
      · exact Or.inl ap
      · exact Or.inr ⟨a1, h, ap⟩
  · rw [if_neg h] at hr
    rw [hr]
    exact ⟨rfl, ⟨[], by simp, by simp [h, convRequests]⟩, Or.inl ⟨rfl, rfl⟩⟩

/-- The whole cycle when a foreign owner advertises a well-formed non-empty
list: it is the commit phase applied to the state left by the two listed
attempts. -/
theorem nab_listed (A : Atoms) (w : Window) (c : Sys) (o : Window) (os : List Window)
    (pre : List XEvent) (sev : XSelectionEvent) (evs : List (Option XEvent))
    (targets : List Atom) (ba : Nat) (ps : List PropReply)
    (ho : c.owners = o :: os) (hon : o ≠ None)
    (hpre : ∀ e ∈ pre, e.asSelectionNotify = none)
    (hev : c.events = pre.map some ++ some (XEvent.SelectionNotify sev) :: evs)
    (hsev : sev.property ≠ None)
    (hpr : c.props = ⟨XA_ATOM, targets.length, ba, some targets⟩ :: ps)
    (hne : targets ≠ []) :
    nab A w c = nab_finish A w (utf8_attempt A w targets (targets_read A w c os evs ps)).2 ∧
    staged A w c = (utf8_attempt A w targets (targets_read A w c os evs ps)).2.pending := by
  have hq : XGetSelectionOwner c A.CLIPBOARD =
      (o, { c with owners := os, calls := c.calls ++ [XCall.XGetSelectionOwner A.CLIPBOARD] }) := by
    simp [XGetSelectionOwner, ho]
  have hf := nab_fetch_listed A w
    { c with owners := os, calls := c.calls ++ [XCall.XGetSelectionOwner A.CLIPBOARD] }
    pre sev evs targets ba ps hpre hev hsev hpr hne
  constructor
  · unfold nab
    dsimp only
    rw [hq]
    dsimp only
    rw [if_neg hon, hf]
    simp [targets_read]
  · unfold staged
    rw [hq]
    dsimp only
    rw [if_neg hon, hf]
    simp [targets_read]

theorem nab_type_timeout (A : Atoms) (w : Window) (t : Atom) (c : Sys)
    (h : c.events = [] ∨ ∃ evs, c.events = none :: evs) : (nab_type A w t c).1 = 0 := by
  rcases h with h | ⟨evs, h⟩ <;> simp [nab_type, XConvertSelection, h, nab_type_loop]

theorem nab_type_absent (A : Atoms) (w : Window) (t : Atom) (c : Sys) (sev : XSelectionEvent)
    (evs : List (Option XEvent)) (h : c.events = some (XEvent.SelectionNotify sev) :: evs)
    (hp : sev.property = None) : (nab_type A w t c).1 = 0 := by
  simp [nab_type, XConvertSelection, h, nab_type_loop, XEvent.asSelectionNotify,
    nab_type_reply, hp]

theorem nab_type_incr (A : Atoms) (w : Window) (t : Atom) (c : Sys) (sev : XSelectionEvent)
    (evs : List (Option XEvent)) (r : PropReply) (ps : List PropReply)
    (h : c.events = some (XEvent.SelectionNotify sev) :: evs)
    (hr : c.props = r :: ps) (hi : r.type = A.INCR) : (nab_type A w t c).1 = 0 := by
  by_cases hp : sev.property = None
  · exact nab_type_absent A w t c sev evs h hp
  · simp [nab_type, XConvertSelection, h, nab_type_loop, XEvent.asSelectionNotify,
      nab_type_reply, hp, XGetWindowProperty, hr, hi]

/-- C10. Priority-ordered negotiation: when a foreign owner answers the
TARGETS request with a well-formed non-empty list, whatever its order and
whatever happens afterwards, the conversion requests of the cycle are
TARGETS, then image/png if listed, then UTF8_STRING if listed, and no other;
the staging area at commit time holds exactly the formats whose attempt
returned 1, image/png before UTF8_STRING, and if it is not empty it becomes
the Store and the daemon claims the clipboard, else the Store is kept; an
attempt that times out, gets a notification without property, or finds the
INCR type returns 0; and when both attempts succeed the Store is image/png,
UTF8_STRING and a TARGETS request is answered with the 4 identifiers TARGETS,
image/png, UTF8_STRING, STRING. -/
theorem priority_negotiation (A : Atoms) (w : Window) (c : Sys) (o : Window)
    (os : List Window) (pre : List XEvent) (sev : XSelectionEvent)
    (evs : List (Option XEvent)) (targets : List Atom) (ba : Nat) (ps : List PropReply)
    (ho : c.owners = o :: os) (hon : o ≠ None)
    (hpre : ∀ e ∈ pre, e.asSelectionNotify = none)
    (hev : c.events = pre.map some ++ some (XEvent.SelectionNotify sev) :: evs)
    (hsev : sev.property ≠ None)
    (hpr : c.props = ⟨XA_ATOM, targets.length, ba, some targets⟩ :: ps)
    (hne : targets ≠ []) :
    convRequests ((nab A w c).calls.drop c.calls.length) =
      A.TARGETS :: [A.IMAGE_PNG, A.UTF8_STRING].filter (fun t => decide (t ∈ targets)) ∧
    staged A w c = (utf8_attempt A w targets (targets_read A w c os evs ps)).2.pending ∧
    (staged A w c).map (fun s => s.type) =
      (if (png_attempt A w targets (targets_read A w c os evs ps)).1 = 1
        then [A.IMAGE_PNG] else []) ++
      (if (utf8_attempt A w targets (targets_read A w c os evs ps)).1 = 1
        then [A.UTF8_STRING] else []) ∧
    (staged A w c ≠ [] →
      (nab A w c).stored = staged A w c ∧
      (nab A w c).calls.getLast? = some (XCall.XSetSelectionOwner A.CLIPBOARD w)) ∧
    (staged A w c = [] → (nab A w c).stored = c.stored) ∧
    ((png_attempt A w targets (targets_read A w c os evs ps)).1 = 1 →
      A.IMAGE_PNG ∈ targets) ∧
    ((utf8_attempt A w targets (targets_read A w c os evs ps)).1 = 1 →
      A.UTF8_STRING ∈ targets) ∧
    (∀ t c2, (c2.events = [] ∨ ∃ evs2, c2.events = none :: evs2) →
      (nab_type A w t c2).1 = 0) ∧
    (∀ t c2 sev2 evs2, c2.events = some (XEvent.SelectionNotify sev2) :: evs2 →
      sev2.property = None → (nab_type A w t c2).1 = 0) ∧
    (∀ t c2 sev2 evs2 r ps2, c2.events = some (XEvent.SelectionNotify sev2) :: evs2 →
      c2.props = r :: ps2 → r.type = A.INCR → (nab_type A w t c2).1 = 0) ∧
    (A.distinct →
      (png_attempt A w targets (targets_read A w c os evs ps)).1 = 1 →
      (utf8_attempt A w targets (targets_read A w c os evs ps)).1 = 1 →
      (nab A w c).stored.map (fun s => s.type) = [A.IMAGE_PNG, A.UTF8_STRING] ∧
      ∀ req : XSelectionRequestEvent, req.target = A.TARGETS → req.property ≠ None →
        handle_SelectionRequest A (nab A w c) req =
          { nab A w c with calls := (nab A w c).calls ++
              [XCall.XChangeProperty req.requestor req.property XA_ATOM 32
                 [A.TARGETS, A.IMAGE_PNG, A.UTF8_STRING, A.STRING] 4,
               XCall.XSendEvent req.requestor
                 ⟨SelectionNotify, req.requestor, req.selection, A.TARGETS, req.property,
                   req.time⟩] }) := by
  obtain ⟨hnab, hstaged⟩ := nab_listed A w c o os pre sev evs targets ba ps ho hon hpre hev
    hsev hpr hne
  obtain ⟨-, ⟨pm, pc, pcv⟩, pp⟩ := listed_attempt_spec A w targets A.IMAGE_PNG
    (targets_read A w c os evs ps) (png_attempt A w targets (targets_read A w c os evs ps)) rfl
  obtain ⟨-, ⟨um, uc, ucv⟩, up⟩ := listed_attempt_spec A w targets A.UTF8_STRING
    (png_attempt A w targets (targets_read A w c os evs ps)).2
    (utf8_attempt A w targets (targets_read A w c os evs ps)) rfl
  obtain ⟨fm, fc, fcv, flast⟩ := nab_finish_calls A w
    (utf8_attempt A w targets (targets_read A w c os evs ps)).2
  have htypes : (staged A w c).map (fun s => s.type) =
      (if (png_attempt A w targets (targets_read A w c os evs ps)).1 = 1
        then [A.IMAGE_PNG] else []) ++
      (if (utf8_attempt A w targets (targets_read A w c os evs ps)).1 = 1
        then [A.UTF8_STRING] else []) := by
    have h0 : (targets_read A w c os evs ps).pending = [] := rfl
    rw [hstaged]
    rcases pp with ⟨p1, p2⟩ | ⟨p1, -, d, k, -, p2⟩ <;>
      rcases up with ⟨u1, u2⟩ | ⟨u1, -, d2, k2, -, u2⟩ <;>
      simp [u2, p2, u1, p1, h0]
  have hcases := nab_commit_cases A w c
  refine ⟨?_, hstaged, htypes, ?_, ?_, ?_, ?_, ?_, ?_, ?_, ?_⟩
  · rw [hnab, fc, uc, pc]
    have : (targets_read A w c os evs ps).calls ++ pm ++ um ++ fm =
        c.calls ++ ([XCall.XGetSelectionOwner A.CLIPBOARD,
          XCall.XConvertSelection A.CLIPBOARD A.TARGETS A.XCLIPD_PROPERTY w,
          XCall.XGetWindowProperty w A.XCLIPD_PROPERTY 0 1024 XA_ATOM,
          XCall.XDeleteProperty w A.XCLIPD_PROPERTY] ++ pm ++ um ++ fm) := by
      simp [targets_read]
    have hq : convRequests [XCall.XGetSelectionOwner A.CLIPBOARD,
        XCall.XConvertSelection A.CLIPBOARD A.TARGETS A.XCLIPD_PROPERTY w,
        XCall.XGetWindowProperty w A.XCLIPD_PROPERTY 0 1024 XA_ATOM,
        XCall.XDeleteProperty w A.XCLIPD_PROPERTY] = [A.TARGETS] := rfl
    rw [this, List.drop_left, convRequests_append, convRequests_append, convRequests_append,
      pcv, ucv, fcv, hq]
    by_cases h1 : A.IMAGE_PNG ∈ targets <;> by_cases h2 : A.UTF8_STRING ∈ targets <;>
      simp [h1, h2]
  · intro hs
    rcases hcases with ⟨h1, -⟩ | ⟨-, h2⟩
    · exact absurd h1 hs
    · refine ⟨h2, ?_⟩
      rw [hnab, fc, flast (by rw [← hstaged]; exact hs)]
      simp
  · intro hs
    rcases hcases with ⟨-, h2⟩ | ⟨h1, -⟩
    · exact h2
    · exact absurd hs h1
  · intro h
    rcases pp with ⟨p1, -⟩ | ⟨-, hm, -⟩
    · rw [p1] at h; exact absurd h (by decide)
    · exact hm
  · intro h
    rcases up with ⟨u1, -⟩ | ⟨-, hm, -⟩
    · rw [u1] at h; exact absurd h (by decide)
    · exact hm
  · intro t c2 h
    exact nab_type_timeout A w t c2 h
  · intro t c2 sev2 evs2 h hp
    exact nab_type_absent A w t c2 sev2 evs2 h hp
  · intro t c2 sev2 evs2 r ps2 h hr hi
    exact nab_type_incr A w t c2 sev2 evs2 r ps2 h hr hi
  · intro hA h1 h2
    obtain ⟨-, -, -, hSU, hSP⟩ := A.distinct_facts hA
    rw [if_pos h1, if_pos h2] at htypes
    have hsne : staged A w c ≠ [] := by
      intro h
      rw [h] at htypes
      simp at htypes
    have hst : (nab A w c).stored = staged A w c := by
      rcases hcases with ⟨h, -⟩ | ⟨-, h⟩
      · exact absurd h hsne
      · exact h
    have hty : (nab A w c).stored.map (fun s => s.type) = [A.IMAGE_PNG, A.UTF8_STRING] := by
      rw [hst, htypes]; rfl
    refine ⟨hty, ?_⟩
    intro req ht hp
    have h0 : ¬ ((nab A w c).stored.length = 0 ∨ req.property = None) := by
      rw [hst]
      simp [hsne, hp]
    unfold handle_SelectionRequest
    rw [if_neg h0, if_pos ht, build_tlist_eq, hty]
    have e1 : ¬ A.STRING = A.IMAGE_PNG := hSP
    have e2 : ¬ A.STRING = A.UTF8_STRING := hSU
    simp [XSendEvent, XChangeProperty, e1, e2]

/-- Witness of C10: the sample session, whose owner lists UTF8_STRING,
image/png and one more format; the requests go out as TARGETS, image/png,
UTF8_STRING and a peer is then told 4 identifiers. -/
theorem priority_negotiation_witness :
    (7 : Window) ≠ None ∧
    convRequests ((nab exAtoms 5 (boot exEvents exOwners exProps)).calls.drop
        (boot exEvents exOwners exProps).calls.length) = [71, 72, 70] ∧
    (nab exAtoms 5 (boot exEvents exOwners exProps)).stored.map (fun s => s.type) = [72, 70] ∧
    handle_SelectionRequest exAtoms (nab exAtoms 5 (boot exEvents exOwners exProps))
        (exRequest 71) =
      { nab exAtoms 5 (boot exEvents exOwners exProps) with
        calls := (nab exAtoms 5 (boot exEvents exOwners exProps)).calls ++
          [XCall.XChangeProperty 9 80 XA_ATOM 32 [71, 72, 70, 31] 4,
           XCall.XSendEvent 9 ⟨SelectionNotify, 9, 69, 71, 80, 1234⟩] } := by
  have h := priority_negotiation exAtoms 5 (boot exEvents exOwners exProps) 7 [0] []
    ⟨31, 5, 69, 71, 73, 0⟩ exEvents.tail [70, 72, 99] 0 exProps.tail rfl (by decide)
    (by simp) rfl (by decide) rfl (by decide)
  have hs := h.2.2.2.2.2.2.2.2.2.2 (by decide) (by decide) (by decide)
  exact ⟨by decide, h.1, hs.1, hs.2 (exRequest 71) rfl (by decide)⟩

end Xclipd
